import Mathlib

/-!
Verification development for the seaf2xlsx repository: a shallow embedding of
its value-normalization, identifier/location, conversion, validation and
namespace-translation logic, with theorems settling the frozen claims.

Cell values coming from a spreadsheet are modelled as `Option String`:
`none` is a missing column and `some s` a cell holding the string `s`.
A pandas `NaN` cell is represented by the string `"nan"`, which is faithful
for every code path used here: `str(nan) = "nan"`, `"nan"` is truthy exactly
as the float `nan` is, and `ws_clean` maps both to `None` via its null-token
set.
-/


/-- The whitespace characters Python's `str.strip` and the regex `\s` treat as
whitespace, restricted to those reachable in this repository's data
(ASCII whitespace plus the non-breaking space that `ws_clean` rewrites). -/
def pyIsSpace (c : Char) : Bool :=
  c == ' ' || c == '\t' || c == '\n' || c == '\r' || c == '\x0b' || c == '\x0c' || c == ' '

/-- Python `str.lower` on the character ranges occurring in this repository:
ASCII letters and the Cyrillic block А..Я plus Ё. -/
def pyLowerChar (c : Char) : Char :=
  if 'A' ≤ c ∧ c ≤ 'Z' then Char.ofNat (c.toNat + 32)
  else if 'А' ≤ c ∧ c ≤ 'Я' then Char.ofNat (c.toNat + 32)
  else if c = 'Ё' then 'ё'
  else c

def pyLower (s : String) : String := ⟨s.data.map pyLowerChar⟩

/-- `str.strip` on a character list. -/
def stripList (l : List Char) : List Char :=
  ((l.dropWhile pyIsSpace).reverse.dropWhile pyIsSpace).reverse

/-- Python `str.strip`. -/
def pyStrip (s : String) : String := ⟨stripList s.data⟩

/-- Maximal runs of non-separator characters (used for `re.split(r'[..]+', s)`
style splitting, which never yields tokens that survive cleaning from the
separator runs themselves). -/
def tokensByGo (p : Char → Bool) : List Char → List Char → List (List Char)
  | [], acc => if acc.isEmpty then [] else [acc.reverse]
  | c :: rest, acc =>
    if p c then
      (if acc.isEmpty then tokensByGo p rest [] else acc.reverse :: tokensByGo p rest [])
    else tokensByGo p rest (c :: acc)

def tokensBy (p : Char → Bool) (l : List Char) : List (List Char) :=
  tokensByGo p l []

/-- `re.split` on single separator characters, keeping empty pieces
(as Python's `re.split(r'[;,]', line)` does). -/
def splitAny (isSep : Char → Bool) : List Char → List (List Char)
  | [] => [[]]
  | c :: rest =>
    if isSep c then [] :: splitAny isSep rest
    else
      match splitAny isSep rest with
      | [] => [[c]]
      | t :: ts => (c :: t) :: ts

/-- Collapse internal whitespace runs to single spaces and strip the ends:
the composition of the `replace` calls, `re.sub(r'\s+', ' ', s)` and `.strip()`
inside `ws_clean`. -/
def collapseWs (s : String) : String :=
  String.intercalate " " ((tokensBy pyIsSpace s.data).map String.mk)

/-- The case-insensitive tokens `ws_clean` maps to `None`. -/
def nullTokens : List String := ["nan", "none", "null", "n/a", "na", ""]

/-- `ws_clean` from both `xlsx_to_yaml.py` and `_seaf2_xlsx_to_yaml.py`. -/
def ws_clean (cell : Option String) : Option String :=
  match cell with
  | none => none
  | some s =>
    if s = "" then none
    else
      let t := collapseWs s
      if pyLower t ∈ nullTokens then none else some t

/-- `id_clean`: whitespace-clean, then remove all internal whitespace. -/
def id_clean (cell : Option String) : Option String :=
  match ws_clean cell with
  | none => none
  | some s =>
    let t : String := ⟨s.data.filter (fun c => !pyIsSpace c)⟩
    if t = "" then none else some t

/-- The `- item` bullet prefix stripping inside `parse_multiline_ids`. -/
def stripDash (s : String) : String :=
  match s.data with
  | '-' :: rest => pyStrip ⟨rest⟩
  | _ => s

/-- `parse_multiline_ids`: split a cell into identifier tokens on newlines,
semicolons and commas, tolerating bullet lists. -/
def parse_multiline_ids (cell : Option String) : List String :=
  match cell with
  | none => []
  | some text =>
    let text2 : String := ⟨text.data.map (fun c => if c = '\r' then '\n' else c)⟩
    ((splitAny (· == '\n') text2.data).map String.mk).flatMap (fun line =>
      let line := pyStrip line
      if line = "" then []
      else
        let line := stripDash line
        (splitAny (fun c => c == ';' || c == ',') line.data).filterMap
          (fun piece => id_clean (some (String.mk piece))))

/-- `parse_locations`: split a cell on `[;,\s]+` runs into cleaned tokens. -/
def parse_locations (cell : Option String) : List String :=
  match cell with
  | none => []
  | some v =>
    match ws_clean (some v) with
    | none => []
    | some s =>
      (tokensBy (fun c => c == ';' || c == ',' || pyIsSpace c) s.data).filterMap
        (fun p => id_clean (some (String.mk p)))

/-- Python truthiness-based `a or b` on cell values: an absent column or an
empty string falls through to `b` (a `NaN` cell is the truthy string `"nan"`). -/
def pyOrCell (a b : Option String) : Option String :=
  match a with
  | none => b
  | some s => if s = "" then b else some s

example : ws_clean (some "  a  b\t") = some "a b" := by decide
example : ws_clean (some "NaN") = none := by decide

/-! ## Identifier & location model (`derive_location_from_network`) -/

/-- The greedy digit run for the capture group of `\.dc(\d+)`. -/
def takeDigits : List Char → List Char
  | [] => []
  | c :: rest => if c.isDigit then c :: takeDigits rest else []

/-- Leftmost match of `re.search(r'\.dc(\d+)', s)`, returning the captured
digit run. The scan advances one character at a time, exactly as `re.search`
tries each start position from the left. -/
def findDcMatch : List Char → Option String
  | '.' :: 'd' :: 'c' :: d :: tail =>
    if d.isDigit then some ⟨d :: takeDigits tail⟩
    else findDcMatch ('d' :: 'c' :: d :: tail)
  | _ :: rest => findDcMatch rest
  | [] => none

/-- The character class `[a-zA-Z0-9-]`. -/
def isAlnumDash (c : Char) : Bool := c.isAlpha || c.isDigit || c == '-'

/-- Whether `re.search(r'\.office\.([a-zA-Z0-9-]+)', s)` matches. -/
def hasOfficeMatch : List Char → Bool
  | '.' :: 'o' :: 'f' :: 'f' :: 'i' :: 'c' :: 'e' :: '.' :: c :: tail =>
    if isAlnumDash c then true
    else hasOfficeMatch ('o' :: 'f' :: 'f' :: 'i' :: 'c' :: 'e' :: '.' :: c :: tail)
  | _ :: rest => hasOfficeMatch rest
  | [] => false

/-- Python `s.split('.')` (keeps empty pieces). -/
def splitDots (s : String) : List String :=
  (splitAny (· == '.') s.data).map String.mk

/-- `net_id.split('.')[0] if '.' in net_id else 'seaf'`. -/
def dotPrefix (s : String) : String :=
  if s.data.contains '.' then (splitDots s).headD "" else "seaf"

/-- `derive_location_from_network` from `_seaf2_xlsx_to_yaml.py` (the copies in
`yaml_to_xlsx.py`, `_seaf2_yaml_to_xlsx.py` and `_seaf2_yaml_to_xlsx_ta.py`
are behaviourally identical). -/
def derive_location_from_network (netId : String) : Option String :=
  if netId = "" then none
  else
    let pre := dotPrefix netId
    match findDcMatch netId.data with
    | some ds => some (pre ++ ".dc." ++ ds)
    | none =>
      if hasOfficeMatch netId.data then
        let parts := splitDots netId
        match parts.findIdx? (· = "office") with
        | some idx =>
          if h : idx + 1 < parts.length then
            if parts[idx + 1] ∈ ["lan", "wan"] then some (pre ++ ".office")
            else some (pre ++ ".office." ++ parts[idx + 1])
          else some (pre ++ ".office")
        | none => none
      else none

/-! ## Enum canonicalization (`normalize_svc_type`) -/

/-- `str.maketrans('CAEOPXy', 'САЕОРХу')`: each Latin homoglyph mapped to its
Cyrillic counterpart. -/
def transChar (c : Char) : Char :=
  if c = 'C' then 'С'
  else if c = 'A' then 'А'
  else if c = 'E' then 'Е'
  else if c = 'O' then 'О'
  else if c = 'P' then 'Р'
  else if c = 'X' then 'Х'
  else if c = 'y' then 'у'
  else c

def transStr (s : String) : String := ⟨s.data.map transChar⟩

/-- The inner `norm` of `normalize_svc_type`: translate then strip. -/
def svcNorm (s : String) : String := pyStrip (transStr s)

/-- The `allowed` list of `normalize_svc_type`, transcribed verbatim. -/
def allowedSvcTypes : List String :=
  ["Управление ИТ-службой, ИТ-инфраструктурой и ИТ-активами (CMDB, ITSM и т.д.)",
   "Управление и автоматизацией (Ansible, Terraform, Jenkins и т.д.)",
   "Управление разработкой и хранения кода (Gitlab, Jira и т.д.)",
   "Управление сетевым адресным пространством (DHCP, DNS и т.д.)",
   "Виртуализация рабочих мест (ВАРМ и VDI)",
   "Шлюз, Балансировщик, прокси",
   "СУБД",
   "Распределенный кэш",
   "Интеграционная шина  (MQ, ETL, API)",
   "Файловый ресурс (FTP, NFS, SMB, S3 и т.д.)",
   "Инфраструктура удаленного доступа",
   "Коммуникации (АТС, Почта, мессенджеры, СМС шлюзы и т.д.)",
   "Серверы приложений и т.д."]

def defaultSvcType : String := "Серверы приложений и т.д."

/-- `SVC_TYPE_MAP` (the secondary rename table). -/
def SVC_TYPE_MAP : List (String × String) :=
  [("E-mail", "Коммуникации (АТС, Почта, мессенджеры, СМС шлюзы и т.д.)"),
   ("Реляционные СУБД", "СУБД"),
   ("Системы управления сетевым адресным пространством (DHCP, DNS т.д.)",
    "Управление сетевым адресным пространством (DHCP, DNS и т.д.)"),
   ("Удаленный доступ", "Инфраструктура удаленного доступа"),
   ("Файловое хранилище", "Файловый ресурс (FTP, NFS, SMB, S3 и т.д.)"),
   ("Управление конфигурациями", "Управление и автоматизацией (Ansible, Terraform, Jenkins и т.д.)"),
   ("Виртуализация", "Управление ИТ-службой, ИТ-инфраструктурой и ИТ-активами (CMDB, ITSM и т.д.)"),
   ("Управление облачной инфраструктурой",
    "Управление ИТ-службой, ИТ-инфраструктурой и ИТ-активами (CMDB, ITSM и т.д.)"),
   ("Иное", "Серверы приложений и т.д."),
   ("Мониторинг", "Серверы приложений и т.д."),
   ("Логгирование", "Серверы приложений и т.д.")]

/-- `normalize_svc_type`. The argument is the (already `ws_clean`-ed) service
type cell; `none` and the empty string are falsy in `if not val`. -/
def normalize_svc_type (val : Option String) : String :=
  match val with
  | none => defaultSvcType
  | some v =>
    if v = "" then defaultSvcType
    else
      let valNorm := svcNorm v
      match allowedSvcTypes.find? (fun item => svcNorm item == valNorm) with
      | some item => item
      | none => (SVC_TYPE_MAP.lookup v).getD defaultSvcType

example : derive_location_from_network "org.network.lan.dc.7.x" = none := by decide
example : derive_location_from_network "org.network.lan.dc7.x" = some "org.dc.7" := by decide
example : derive_location_from_network "org.network.wan.office.msk" = some "org.office.msk" := by
  decide
example : derive_location_from_network "org.network.wan.misc" = none := by decide
example : derive_location_from_network "org.network.office.lan.5" = some "org.office" := by decide
example : normalize_svc_type (some "СУБД") = "СУБД" := by decide
example : normalize_svc_type (some " CУБД ") = "СУБД" := by decide
example : normalize_svc_type (some "субд") = "Серверы приложений и т.д." := by decide
example : normalize_svc_type (some "Реляционные СУБД") = "СУБД" := by decide
example : normalize_svc_type none = defaultSvcType := by decide
example : ws_clean (some " ") = none := by decide
example : id_clean (some " org . dc . 1 ") = some "org.dc.1" := by decide
example : parse_multiline_ids (some "- N1\r\nN2; N3,,") = ["N1", "N2", "N3"] := by decide
example : parse_locations (some "org.dc.1 org.dc.2;x") = ["org.dc.1", "org.dc.2", "x"] := by
  decide


/-! ## YAML value model, `sanitize_for_yaml` -/

mutual
/-- A parsed YAML/Python value: strings, opaque non-string scalars
(numbers, booleans, `None`), sequences, and insertion-ordered mappings. -/
inductive YVal where
  | str (s : String)
  | scalar (tag : String)
  | list (xs : YList)
  | map (m : YFields)

inductive YList where
  | nil
  | cons (hd : YVal) (tl : YList)

inductive YFields where
  | nil
  | cons (k : String) (v : YVal) (tl : YFields)
end

def isNl (c : Char) : Bool := c == '\r' || c == '\n'

/-- `re.sub(r'[\r\n]+', ' ', s)`: each maximal run of carriage returns and
line feeds becomes a single space. -/
def collapseNlGo : List Char → List Char
  | [] => []
  | [c] => if isNl c then [' '] else [c]
  | c :: d :: rest =>
    if isNl c then
      if isNl d then collapseNlGo (d :: rest)
      else ' ' :: collapseNlGo (d :: rest)
    else c :: collapseNlGo (d :: rest)

def collapseNl (s : String) : String := ⟨collapseNlGo s.data⟩

def startsWithUnderscore (s : String) : Bool :=
  match s.data with
  | '_' :: _ => true
  | _ => false

mutual
/-- `sanitize_for_yaml` (identical in `xlsx_to_yaml.py` and
`_seaf2_xlsx_to_yaml.py`): drop keys starting with `_` at every depth,
collapse newline runs in strings, pass other values through. -/
def sanitize_for_yaml : YVal → YVal
  | .str s => .str (collapseNl s)
  | .scalar t => .scalar t
  | .list xs => .list (sanitizeL xs)
  | .map m => .map (sanitizeF m)

def sanitizeL : YList → YList
  | .nil => .nil
  | .cons v tl => .cons (sanitize_for_yaml v) (sanitizeL tl)

def sanitizeF : YFields → YFields
  | .nil => .nil
  | .cons k v tl =>
    if startsWithUnderscore k then sanitizeF tl
    else .cons k (sanitize_for_yaml v) (sanitizeF tl)
end

mutual
/-- No string anywhere in the value contains a CR or LF character. -/
def noNlVal : YVal → Bool
  | .str s => !s.data.any isNl
  | .scalar _ => true
  | .list xs => noNlL xs
  | .map m => noNlF m

def noNlL : YList → Bool
  | .nil => true
  | .cons v tl => noNlVal v && noNlL tl

def noNlF : YFields → Bool
  | .nil => true
  | .cons _ v tl => noNlVal v && noNlF tl
end

mutual
/-- No mapping key at any nesting depth starts with an underscore. -/
def noUKeyVal : YVal → Bool
  | .str _ => true
  | .scalar _ => true
  | .list xs => noUKeyL xs
  | .map m => noUKeyF m

def noUKeyL : YList → Bool
  | .nil => true
  | .cons v tl => noUKeyVal v && noUKeyL tl

def noUKeyF : YFields → Bool
  | .nil => true
  | .cons k v tl => !startsWithUnderscore k && noUKeyVal v && noUKeyF tl
end

/-! ## Namespace translation between the two schema generations
(`src/tests/seaf1_to_seaf2.py`) -/

/-- `namespace_mappings` of `convert_seaf1_to_seaf2`. -/
def ns12 : List (String × String) :=
  [("seaf.ta.services.dc_region", "seaf.company.ta.services.dc_regions"),
   ("seaf.ta.services.dc_az", "seaf.company.ta.services.dc_azs"),
   ("seaf.ta.services.dc", "seaf.company.ta.services.dcs"),
   ("seaf.ta.services.office", "seaf.company.ta.services.dc_offices"),
   ("seaf.ta.services.network_segment", "seaf.company.ta.services.network_segments"),
   ("seaf.ta.services.network", "seaf.company.ta.services.networks"),
   ("seaf.ta.services.kb", "seaf.company.ta.services.kbs"),
   ("seaf.ta.components.network", "seaf.company.ta.components.networks")]

/-- `namespace_mappings` of `convert_seaf2_to_seaf1` (the reverse table). -/
def ns21 : List (String × String) :=
  [("seaf.company.ta.services.dc_regions", "seaf.ta.services.dc_region"),
   ("seaf.company.ta.services.dc_azs", "seaf.ta.services.dc_az"),
   ("seaf.company.ta.services.dcs", "seaf.ta.services.dc"),
   ("seaf.company.ta.services.dc_offices", "seaf.ta.services.office"),
   ("seaf.company.ta.services.network_segments", "seaf.ta.services.network_segment"),
   ("seaf.company.ta.services.networks", "seaf.ta.services.network"),
   ("seaf.company.ta.services.kbs", "seaf.ta.services.kb"),
   ("seaf.company.ta.components.networks", "seaf.ta.components.network")]

/-- `mappings.get(key, key)`. -/
def mapKey (table : List (String × String)) (k : String) : String :=
  (table.lookup k).getD k

/-- The `for entity_id, entity_data in value.items(): new_value[entity_id] =
entity_data` loop of `convert_seaf1_to_seaf2`: rebuilds the mapping entry by
entry. -/
def rebuildF : YFields → YFields
  | .nil => .nil
  | .cons k v tl => .cons k v (rebuildF tl)

/-- The per-document core of `convert_seaf1_to_seaf2`: rename each top-level
namespace key, rebuilding dict values entry by entry and passing other values
through. -/
def convert_seaf1_to_seaf2_doc : YFields → YFields
  | .nil => .nil
  | .cons k v tl =>
    .cons (mapKey ns12 k)
      (match v with
       | .map m => .map (rebuildF m)
       | v => v)
      (convert_seaf1_to_seaf2_doc tl)

/-- The per-document core of `convert_seaf2_to_seaf1`: rename each top-level
namespace key, passing values through unchanged. -/
def convert_seaf2_to_seaf1_doc : YFields → YFields
  | .nil => .nil
  | .cons k v tl => .cons (mapKey ns21 k) v (convert_seaf2_to_seaf1_doc tl)

def keysOfF : YFields → List String
  | .nil => []
  | .cons k _ tl => k :: keysOfF tl

def gen1Keys : List String := ns12.map Prod.fst

theorem collapseNlGo_no_nl : ∀ l : List Char, (collapseNlGo l).any isNl = false
  | [] => rfl
  | [c] => by
    simp only [collapseNlGo]
    cases h : isNl c
    · simp [h]
    · simp [h]
      decide
  | c :: d :: rest => by
    have ih := collapseNlGo_no_nl (d :: rest)
    simp only [collapseNlGo]
    cases h1 : isNl c
    · simp [h1, ih]
    · cases h2 : isNl d
      · simp [h1, h2, ih]
        decide
      · simp [h1, h2, ih]

mutual
theorem sanitizeV_ok : ∀ v : YVal,
    noNlVal (sanitize_for_yaml v) = true ∧ noUKeyVal (sanitize_for_yaml v) = true
  | .str s => by
    simp [sanitize_for_yaml, noNlVal, noUKeyVal, collapseNl, collapseNlGo_no_nl]
  | .scalar t => by simp [sanitize_for_yaml, noNlVal, noUKeyVal]
  | .list xs => by
    simpa [sanitize_for_yaml, noNlVal, noUKeyVal] using sanitizeL_ok xs
  | .map m => by
    simpa [sanitize_for_yaml, noNlVal, noUKeyVal] using sanitizeF_ok m

theorem sanitizeL_ok : ∀ xs : YList,
    noNlL (sanitizeL xs) = true ∧ noUKeyL (sanitizeL xs) = true
  | .nil => by simp [sanitizeL, noNlL, noUKeyL]
  | .cons v tl => by
    have hv := sanitizeV_ok v
    have ht := sanitizeL_ok tl
    simp [sanitizeL, noNlL, noUKeyL, hv.1, hv.2, ht.1, ht.2]

theorem sanitizeF_ok : ∀ m : YFields,
    noNlF (sanitizeF m) = true ∧ noUKeyF (sanitizeF m) = true
  | .nil => by simp [sanitizeF, noNlF, noUKeyF]
  | .cons k v tl => by
    have hv := sanitizeV_ok v
    have ht := sanitizeF_ok tl
    by_cases hk : startsWithUnderscore k = true
    · simpa [sanitizeF, hk] using ht
    · simp [sanitizeF, hk, noNlF, noUKeyF, hv.1, hv.2, ht.1, ht.2]
end

/-- C10: every value passed through `sanitize_for_yaml` is fully sanitized:
no mapping key at any nesting depth starts with an underscore (so internal
bookkeeping fields such as `_source_info` never reach an output fragment),
and no string value anywhere in the result contains a carriage return or line
feed (each run having been replaced by a single space), so multi-line cells do
not survive verbatim. -/
theorem sanitize_for_yaml_sanitizes (v : YVal) :
    noUKeyVal (sanitize_for_yaml v) = true ∧ noNlVal (sanitize_for_yaml v) = true :=
  ⟨(sanitizeV_ok v).2, (sanitizeV_ok v).1⟩

theorem rebuildF_id : ∀ m : YFields, rebuildF m = m
  | .nil => rfl
  | .cons k v tl => by rw [rebuildF, rebuildF_id tl]

theorem mapKey_roundtrip : ∀ k ∈ gen1Keys, mapKey ns21 (mapKey ns12 k) = k := by decide

theorem convert1to2_value_id (v : YVal) :
    (match v with
     | .map m => YVal.map (rebuildF m)
     | v => v) = v := by
  cases v <;> simp [rebuildF_id]

/-- C7: the namespace translation between the two schema generations is
symmetric: on any document whose top-level keys are generation-1 namespace
keys, `convert_seaf1_to_seaf2` followed by `convert_seaf2_to_seaf1` is the
identity on content — same namespace keys, same entity IDs, same field
values (file names and grouping are outside this per-document statement). -/
theorem namespace_translation_symmetric :
    ∀ d : YFields, (∀ k ∈ keysOfF d, k ∈ gen1Keys) →
      convert_seaf2_to_seaf1_doc (convert_seaf1_to_seaf2_doc d) = d
  | .nil, _ => rfl
  | .cons k v tl, h => by
    have hk : k ∈ gen1Keys := h k (by simp [keysOfF])
    have htl : ∀ k' ∈ keysOfF tl, k' ∈ gen1Keys := fun k' hk' => h k' (by simp [keysOfF, hk'])
    simp only [convert_seaf1_to_seaf2_doc, convert_seaf2_to_seaf1_doc]
    rw [mapKey_roundtrip k hk, convert1to2_value_id,
      namespace_translation_symmetric tl htl]

/-- A concrete generation-1 document used to witness C7. -/
def exampleGen1Doc : YFields :=
  .cons "seaf.ta.services.network"
    (.map (.cons "org.network.lan.1"
      (.map (.cons "title" (.str "LAN 1") (.cons "type" (.str "LAN") .nil))) .nil))
    (.cons "seaf.ta.services.kb" (.map .nil) .nil)

/-- Witness for C7 at a concrete two-collection document. -/
theorem namespace_translation_symmetric_witness :
    convert_seaf2_to_seaf1_doc (convert_seaf1_to_seaf2_doc exampleGen1Doc) = exampleGen1Doc :=
  namespace_translation_symmetric exampleGen1Doc (by decide)

/-! ## C6: enum canonicalization convergence -/

/-- The homoglyph pairs of the translation table, as
(Cyrillic canonical, Latin look-alike). -/
def homoglyphPairs : List (Char × Char) :=
  [('С', 'C'), ('А', 'A'), ('Е', 'E'), ('О', 'O'), ('Р', 'P'), ('Х', 'X'), ('у', 'y')]

/-- `c'` is `c` or a Latin homoglyph of the Cyrillic `c`. -/
def homoglyphCharB (c c' : Char) : Bool := c' == c || (c, c') ∈ homoglyphPairs

/-- `cd` is `vd` with some characters replaced by Latin homoglyphs. -/
def coreVariant (vd cd : List Char) : Bool :=
  vd.length == cd.length && (List.zip vd cd).all fun p => homoglyphCharB p.1 p.2

theorem transChar_of_pair : ∀ p ∈ homoglyphPairs, transChar p.2 = p.1 ∧ transChar p.1 = p.1 := by
  decide

theorem transChar_of_homoglyph {c c' : Char} (h : homoglyphCharB c c' = true) :
    transChar c' = transChar c := by
  unfold homoglyphCharB at h
  rcases Bool.or_eq_true_iff.mp h with h | h
  · rw [show c' = c from by simpa using h]
  · have hm : (c, c') ∈ homoglyphPairs := by simpa using h
    have := transChar_of_pair (c, c') hm
    simp only at this
    rw [this.1, this.2]

theorem transChar_of_space {c : Char} (h : pyIsSpace c = true) : transChar c = c := by
  unfold pyIsSpace at h
  simp only [Bool.or_eq_true_iff, beq_iff_eq] at h
  rcases h with ((((((h | h) | h) | h) | h) | h) | h) <;> subst h <;> decide

theorem map_trans_of_coreVariant :
    ∀ vd cd : List Char, coreVariant vd cd = true → cd.map transChar = vd.map transChar := by
  intro vd
  induction vd with
  | nil =>
    intro cd h
    unfold coreVariant at h
    cases cd with
    | nil => rfl
    | cons c cs => simp at h
  | cons a as ih =>
    intro cd h
    unfold coreVariant at h
    cases cd with
    | nil => simp at h
    | cons c cs =>
      simp only [List.length_cons, List.zip_cons_cons, List.all_cons, Bool.and_eq_true,
        beq_iff_eq, Nat.succ.injEq] at h
      obtain ⟨hlen, hc, hcs⟩ := h
      have htail : coreVariant as cs = true := by
        unfold coreVariant
        simp [hlen, hcs]
      simp only [List.map_cons, ih cs htail, List.cons.injEq, and_true]
      exact transChar_of_homoglyph hc

theorem dropWhile_append_of_all {p : Char → Bool} :
    ∀ (l₁ l₂ : List Char), l₁.all p = true → (l₁ ++ l₂).dropWhile p = l₂.dropWhile p := by
  intro l₁
  induction l₁ with
  | nil => intro l₂ _; rfl
  | cons a as ih =>
    intro l₂ h
    simp only [List.all_cons, Bool.and_eq_true] at h
    simp [List.dropWhile_cons, h.1, ih l₂ h.2]


theorem stripList_space_left {wl x : List Char} (hl : wl.all pyIsSpace = true) :
    stripList (wl ++ x) = stripList x := by
  unfold stripList
  rw [dropWhile_append_of_all wl x hl]

theorem stripList_space_right {wr x : List Char} (hr : wr.all pyIsSpace = true) :
    stripList (x ++ wr) = stripList x := by
  unfold stripList
  rw [List.dropWhile_append]
  by_cases h : (x.dropWhile pyIsSpace).isEmpty
  · rw [if_pos h]
    have hwr : wr.dropWhile pyIsSpace = [] :=
      List.dropWhile_eq_nil_iff.mpr (fun c hc => List.all_eq_true.mp hr c hc)
    have hx : x.dropWhile pyIsSpace = [] := by simpa [List.isEmpty_iff] using h
    rw [hwr, hx]
  · rw [if_neg h, List.reverse_append,
      dropWhile_append_of_all wr.reverse _ (by rw [List.all_reverse]; exact hr)]

theorem stripList_pad {wl wr m : List Char}
    (hl : wl.all pyIsSpace = true) (hr : wr.all pyIsSpace = true) :
    stripList (wl ++ m ++ wr) = stripList m := by
  rw [List.append_assoc, stripList_space_left hl, stripList_space_right hr]

/-- A homoglyph-and-whitespace variant: `s` is `v` with some characters
replaced by their Latin homoglyphs and whitespace added around it. -/
def HomoglyphWsVariant (v s : String) : Prop :=
  ∃ wl core wr : List Char, s.data = wl ++ core ++ wr ∧ wl.all pyIsSpace = true ∧
    wr.all pyIsSpace = true ∧ coreVariant v.data core = true

theorem svcNorm_of_variant {v s : String} (h : HomoglyphWsVariant v s) :
    svcNorm s = svcNorm v := by
  obtain ⟨wl, core, wr, hs, hl, hr, hcv⟩ := h
  unfold svcNorm transStr pyStrip
  have hwl : wl.map transChar = wl := by
    have hc : ∀ c ∈ wl, transChar c = c :=
      fun c hc => transChar_of_space (List.all_eq_true.mp hl c hc)
    simpa using List.map_congr_left hc
  have hwr : wr.map transChar = wr := by
    have hc : ∀ c ∈ wr, transChar c = c :=
      fun c hc => transChar_of_space (List.all_eq_true.mp hr c hc)
    simpa using List.map_congr_left hc
  have : (s.data.map transChar) = wl ++ core.map transChar ++ wr := by
    rw [hs, List.map_append, List.map_append, hwl, hwr]
  simp only [this, map_trans_of_coreVariant v.data core hcv]
  exact congrArg String.mk (stripList_pad hl hr)

theorem allowed_norms_nodup : (allowedSvcTypes.map svcNorm).Nodup := by decide

theorem allowed_nonempty : ∀ x ∈ allowedSvcTypes, x.data ≠ [] := by decide

theorem find?_first_of_nodup_norms :
    ∀ l : List String, (l.map svcNorm).Nodup → ∀ v ∈ l,
      l.find? (fun item => svcNorm item == svcNorm v) = some v
  | [], _, v, hv => absurd hv (List.not_mem_nil v)
  | a :: l, hnd, v, hv => by
    have hnd' : svcNorm a ∉ List.map svcNorm l ∧ (List.map svcNorm l).Nodup := by
      rw [List.map_cons, List.nodup_cons] at hnd
      exact hnd
    rcases List.mem_cons.mp hv with rfl | hv'
    · simp [List.find?_cons]
    · have hne : (svcNorm a == svcNorm v) = false := by
        apply beq_eq_false_iff_ne.mpr
        intro heq
        exact hnd'.1 (heq.symm ▸ List.mem_map_of_mem svcNorm hv')
      rw [List.find?_cons, hne]
      exact find?_first_of_nodup_norms l hnd'.2 v hv'

/-- C6 (amended): for every canonical service-type value `v` in the allowed
list and every string obtained from `v` only by substituting Latin homoglyphs
for the corresponding Cyrillic characters or adding surrounding whitespace,
`normalize_svc_type` returns exactly `v`. (The claim's further tolerance of
letter-case changes does not hold: the comparison is case-sensitive, see the
counterexample.) -/
theorem normalize_svc_type_homoglyph_ws (v s : String) (hv : v ∈ allowedSvcTypes)
    (hvar : HomoglyphWsVariant v s) :
    normalize_svc_type (some s) = v := by
  have hnorm : svcNorm s = svcNorm v := svcNorm_of_variant hvar
  have hne : ¬s = "" := by
    obtain ⟨wl, core, wr, hs, _, _, hcv⟩ := hvar
    intro h0
    rw [h0] at hs
    have hnil : ([] : List Char) = wl ++ (core ++ wr) := by
      simpa [List.append_assoc] using hs
    have hcore : core = [] := by
      rcases List.append_eq_nil.mp hnil.symm with ⟨-, h2⟩
      exact (List.append_eq_nil.mp h2).1
    have hlen : v.data.length = core.length := by
      simp only [coreVariant, Bool.and_eq_true, beq_iff_eq] at hcv
      exact hcv.1
    rw [hcore] at hlen
    exact allowed_nonempty v hv (List.length_eq_zero.mp hlen)
  have hdef : normalize_svc_type (some s)
      = if s = "" then defaultSvcType
        else
          match allowedSvcTypes.find? (fun item => svcNorm item == svcNorm s) with
          | some item => item
          | none => (SVC_TYPE_MAP.lookup s).getD defaultSvcType := rfl
  rw [hdef, if_neg hne, hnorm,
    find?_first_of_nodup_norms allowedSvcTypes allowed_norms_nodup v hv]

/-- C6 counterexample: `"субд"` differs from the canonical `"СУБД"` only by
letter case, yet canonicalization does not return `"СУБД"` — it is
case-sensitive and falls through to the default value. -/
theorem normalize_svc_type_case_counterexample :
    "СУБД" ∈ allowedSvcTypes ∧ pyLower "СУБД" = "субд" ∧
      normalize_svc_type (some "субд") = "Серверы приложений и т.д." ∧
      ¬normalize_svc_type (some "субд") = "СУБД" := by
  refine ⟨by decide, by decide, by decide, by decide⟩

/-- Witness for C6: the homoglyph-and-whitespace variant `" CУБД "` (Latin C)
of the canonical `"СУБД"` canonicalizes back to `"СУБД"`. -/
theorem normalize_svc_type_homoglyph_ws_witness :
    normalize_svc_type (some " CУБД ") = "СУБД" :=
  normalize_svc_type_homoglyph_ws "СУБД" " CУБД " (by decide)
    ⟨[' '], "CУБД".data, [' '], by decide, by decide, by decide, by decide⟩

/-! ## C2: location derivation -/

/-- The ID contains an occurrence of `.dc` immediately followed by a digit
(what the regex `\.dc(\d+)` actually requires). -/
def ContainsDcDigit (l : List Char) : Prop :=
  ∃ a d b, l = a ++ '.' :: 'd' :: 'c' :: d :: b ∧ d.isDigit = true

/-- The ID contains an occurrence of `.office.` followed by an `[a-zA-Z0-9-]`
character (what the regex `\.office\.([a-zA-Z0-9-]+)` requires). -/
def ContainsOfficePat (l : List Char) : Prop :=
  ∃ a c b, l = a ++ '.' :: 'o' :: 'f' :: 'f' :: 'i' :: 'c' :: 'e' :: '.' :: c :: b ∧
    isAlnumDash c = true

theorem findDcMatch_none_iff : ∀ l : List Char, findDcMatch l = none ↔ ¬ContainsDcDigit l := by
  intro l
  induction l using findDcMatch.induct with
  | case1 d tail hd =>
    rw [findDcMatch.eq_1, if_pos hd]
    constructor
    · intro h; cases h
    · intro h; exact absurd ⟨[], d, tail, rfl, hd⟩ h
  | case2 d tail hd ih =>
    rw [findDcMatch.eq_1, if_neg hd, ih]
    apply not_congr
    constructor
    · rintro ⟨a, e, b, heq, he⟩
      exact ⟨'.' :: a, e, b, by rw [heq]; rfl, he⟩
    · rintro ⟨a, e, b, heq, he⟩
      cases a with
      | nil =>
        simp only [List.nil_append, List.cons.injEq] at heq
        obtain ⟨-, -, -, hde, -⟩ := heq
        exact absurd (hde ▸ he) hd
      | cons x a' =>
        simp only [List.cons_append, List.cons.injEq] at heq
        exact ⟨a', e, b, heq.2, he⟩
  | case3 head rest hnm ih =>
    rw [findDcMatch.eq_2 head rest hnm, ih]
    apply not_congr
    constructor
    · rintro ⟨a, e, b, heq, he⟩
      exact ⟨head :: a, e, b, by rw [heq]; rfl, he⟩
    · rintro ⟨a, e, b, heq, he⟩
      cases a with
      | nil =>
        simp only [List.nil_append, List.cons.injEq] at heq
        exact absurd (hnm e b heq.1 heq.2) (fun f => f)
      | cons x a' =>
        simp only [List.cons_append, List.cons.injEq] at heq
        exact ⟨a', e, b, heq.2, he⟩
  | case4 =>
    rw [findDcMatch.eq_3]
    constructor
    · rintro - ⟨a, d, b, heq, -⟩
      cases a <;> simp at heq
    · intro _; rfl

theorem takeDigits_all : ∀ l : List Char, (takeDigits l).all Char.isDigit = true := by
  intro l
  induction l with
  | nil => rfl
  | cons c rest ih =>
    by_cases hc : c.isDigit = true
    · simp [takeDigits, hc, ih]
    · simp [takeDigits, hc]

theorem findDcMatch_digits :
    ∀ l : List Char, ∀ ds : String, findDcMatch l = some ds →
      ds.data ≠ [] ∧ ds.data.all Char.isDigit = true := by
  intro l
  induction l using findDcMatch.induct with
  | case1 d tail hd =>
    intro ds hds
    rw [findDcMatch.eq_1, if_pos hd] at hds
    cases hds
    refine ⟨by simp, ?_⟩
    simp [hd, takeDigits_all tail]
  | case2 d tail hd ih =>
    intro ds hds
    rw [findDcMatch.eq_1, if_neg hd] at hds
    exact ih ds hds
  | case3 head rest hnm ih =>
    intro ds hds
    rw [findDcMatch.eq_2 head rest hnm] at hds
    exact ih ds hds
  | case4 =>
    intro ds hds
    rw [findDcMatch.eq_3] at hds
    cases hds

theorem hasOfficeMatch_true_iff :
    ∀ l : List Char, hasOfficeMatch l = true ↔ ContainsOfficePat l := by
  intro l
  induction l using hasOfficeMatch.induct with
  | case1 c tail hc =>
    rw [hasOfficeMatch.eq_1, if_pos hc]
    constructor
    · intro _; exact ⟨[], c, tail, rfl, hc⟩
    · intro _; rfl
  | case2 c tail hc ih =>
    rw [hasOfficeMatch.eq_1, if_neg hc, ih]
    constructor
    · rintro ⟨a, e, b, heq, he⟩
      exact ⟨'.' :: a, e, b, by rw [heq]; rfl, he⟩
    · rintro ⟨a, e, b, heq, he⟩
      cases a with
      | nil =>
        simp only [List.nil_append, List.cons.injEq] at heq
        obtain ⟨-, -, -, -, -, -, -, -, hce, -⟩ := heq
        exact absurd (hce ▸ he) hc
      | cons x a' =>
        simp only [List.cons_append, List.cons.injEq] at heq
        exact ⟨a', e, b, heq.2, he⟩
  | case3 head rest hnm ih =>
    rw [hasOfficeMatch.eq_2 head rest hnm, ih]
    constructor
    · rintro ⟨a, e, b, heq, he⟩
      exact ⟨head :: a, e, b, by rw [heq]; rfl, he⟩
    · rintro ⟨a, e, b, heq, he⟩
      cases a with
      | nil =>
        simp only [List.nil_append, List.cons.injEq] at heq
        exact absurd (hnm e b heq.1 heq.2) (fun f => f)
      | cons x a' =>
        simp only [List.cons_append, List.cons.injEq] at heq
        exact ⟨a', e, b, heq.2, he⟩
  | case4 =>
    rw [hasOfficeMatch.eq_3]
    constructor
    · intro h; cases h
    · rintro ⟨a, c, b, heq, -⟩
      cases a <;> simp at heq

theorem derive_location_dc (s : String) (h : ContainsDcDigit s.data) :
    ∃ n : String, derive_location_from_network s = some (dotPrefix s ++ ".dc." ++ n) ∧
      n.data ≠ [] ∧ n.data.all Char.isDigit = true := by
  have hne : ¬s = "" := by
    intro h0
    rw [h0] at h
    obtain ⟨a, d, b, heq, -⟩ := h
    have : ([] : List Char) = a ++ '.' :: 'd' :: 'c' :: d :: b := heq
    cases a <;> simp at this
  have hsome : findDcMatch s.data ≠ none := by
    rw [Ne, findDcMatch_none_iff]
    exact not_not_intro h
  rcases hds : findDcMatch s.data with - | ds
  · exact absurd hds hsome
  · obtain ⟨hnil, hdig⟩ := findDcMatch_digits s.data ds hds
    refine ⟨ds, ?_, hnil, hdig⟩
    simp only [derive_location_from_network, hne, if_false, hds]

theorem derive_location_none (s : String) (hdc : ¬ContainsDcDigit s.data)
    (hoff : ¬ContainsOfficePat s.data) :
    derive_location_from_network s = none := by
  by_cases hne : s = ""
  · simp [derive_location_from_network, hne]
  · have h1 : findDcMatch s.data = none := (findDcMatch_none_iff s.data).mpr hdc
    have h2 : hasOfficeMatch s.data = false := by
      rw [← Bool.not_eq_true, hasOfficeMatch_true_iff]
      exact hoff
    simp only [derive_location_from_network, hne, if_false, h1, h2]
    rfl

/-- C2 (amended): `derive_location_from_network` keys its data-centre rule on
`.dc` immediately followed by digits, not on a `.dc.<N>` segment chain: the
spec's first equation fails (`"org.network.lan.dc.7.x"` yields `null`, while
`"org.network.lan.dc7.x"` yields `"org.dc.7"`); the office and misc equations
hold; in general every ID containing `.dc<digits>` yields
`<prefix>.dc.<digit-run>`, an ID with an `.office.<token>` occurrence whose
token after the first `office` segment is `lan`/`wan` yields
`<prefix>.office` (not `null`), and an ID containing neither pattern yields
`null`. -/
theorem derive_location_characterization :
    derive_location_from_network "org.network.lan.dc.7.x" = none ∧
    derive_location_from_network "org.network.lan.dc7.x" = some "org.dc.7" ∧
    derive_location_from_network "org.network.wan.office.msk" = some "org.office.msk" ∧
    derive_location_from_network "org.network.wan.misc" = none ∧
    derive_location_from_network "org.network.office.lan.5" = some "org.office" ∧
    (∀ s : String, ContainsDcDigit s.data →
      ∃ n : String, derive_location_from_network s = some (dotPrefix s ++ ".dc." ++ n) ∧
        n.data ≠ [] ∧ n.data.all Char.isDigit = true) ∧
    (∀ s : String, ¬ContainsDcDigit s.data → ¬ContainsOfficePat s.data →
      derive_location_from_network s = none) :=
  ⟨by decide, by decide, by decide, by decide, by decide,
   derive_location_dc, derive_location_none⟩

/-- C2 counterexample: the claim's first determinism equation is false on the
code — `derive_location_from_network "org.network.lan.dc.7.x"` is `null`, not
`"org.dc.7"` — and so is its "otherwise null" clause: an office token in
{lan, wan} yields `"<prefix>.office"` rather than `null`. -/
theorem derive_location_claim_counterexample :
    ¬derive_location_from_network "org.network.lan.dc.7.x" = some "org.dc.7" ∧
    ¬derive_location_from_network "org.network.office.lan.5" = none := by
  exact ⟨by decide, by decide⟩

/-- Witness for C2 at concrete inputs for both general conjuncts. -/
theorem derive_location_characterization_witness :
    (∃ n : String,
        derive_location_from_network "net.dc42.x"
          = some (dotPrefix "net.dc42.x" ++ ".dc." ++ n) ∧
        n.data ≠ [] ∧ n.data.all Char.isDigit = true) ∧
    derive_location_from_network "plain" = none :=
  ⟨derive_location_characterization.2.2.2.2.2.1 "net.dc42.x"
     ⟨"net".data, '4', "2.x".data, by decide, by decide⟩,
   derive_location_characterization.2.2.2.2.2.2 "plain"
     ((findDcMatch_none_iff "plain".data).mp (by decide))
     (fun hc => absurd ((hasOfficeMatch_true_iff "plain".data).mpr hc) (by decide))⟩

/-! ## Tech-services converter (`_seaf2_xlsx_to_yaml.convert_tech_services`) -/

/-- Python `a or b` on optional values that are `None` or non-empty strings
(the outputs of `ws_clean` / `id_clean` are never the empty string). -/
def pyOrOpt (a b : Option String) : Option String :=
  match a with
  | some v => some v
  | none => b

/-- Insertion sort by the string order (Python's `sorted` on code points). -/
def insertSorted (x : String) : List String → List String
  | [] => [x]
  | y :: ys => if x ≤ y then x :: y :: ys else y :: insertSorted x ys

def sortStrings : List String → List String
  | [] => []
  | x :: xs => insertSorted x (sortStrings xs)

/-- First-occurrence deduplication (the content of Python's `set`). -/
def dedupFirst (seen : List String) : List String → List String
  | [] => []
  | x :: xs => if x ∈ seen then dedupFirst seen xs else x :: dedupFirst (x :: seen) xs

/-- `sorted(list(set(l)))`: the sorted list of the distinct elements. -/
def pySortedSet (l : List String) : List String := sortStrings (dedupFirst [] l)

/-- `SPECIAL_ENTITY_MAP`, with values as the four `out_data` buckets. -/
inductive TechEType where
  | compute_services
  | clusters
  | monitorings
  | backups
deriving DecidableEq

def SPECIAL_ENTITY_MAP : List (String × TechEType) :=
  [("Мониторинг", .monitorings),
   ("Логгирование", .monitorings),
   ("Резервное копирование", .backups),
   ("Бекапирование и восстановление данных", .backups)]

/-- The reservation-type values whose lower-case form marks a cluster. -/
def reservationVals : List String := ["active-active", "active-passive", "n+1", "да"]

/-- The entity-type classification of `convert_tech_services` (the final
`elif cls_val == 'Compute Service'` branch re-assigns the default and is a
no-op). -/
def classifyTech (svcRaw clsVal resVal : Option String) : TechEType :=
  match svcRaw.bind (fun v => SPECIAL_ENTITY_MAP.lookup v) with
  | some e => e
  | none =>
    let resCluster :=
      match resVal with
      | some r => pyLower r ∈ reservationVals
      | none => false
    if clsVal == some "Cluster" || resCluster then .clusters else .compute_services

/-- A row of the `Тех. сервисы` sheet (cells of the columns the converter
reads; the two `Подключен к сети` spellings are distinct columns). -/
structure TechRow where
  identifikator : Option String
  tipServisa : Option String
  klass : Option String
  tipRezervirovaniya : Option String
  podklyuchenKSeti : Option String
  podklyuchenKSeti2 : Option String
  tsod : Option String
  naimenovanie : Option String
  opisanie : Option String
deriving DecidableEq

/-- The produced tech-service entity; fields that only some entity kinds carry
are `Option`-wrapped (`none` = key absent from the dict). -/
structure TechObj where
  title : Option String
  description : Option String
  location : List String
  network_connection : List String
  availabilityzone : List String
  service_type : Option String
  reservation_type : Option (Option String)
  role : Option (List String)
  ha : Option Bool
  monitored_services : Option (List String)
  path : Option String
  backed_up_services : Option (List String)
deriving DecidableEq

def techNets (r : TechRow) : List String :=
  parse_multiline_ids (pyOrCell r.podklyuchenKSeti r.podklyuchenKSeti2)

/-- `ЦОД` locations, falling back to locations derived from the connected
networks, deduplicated and sorted. -/
def techLocs (r : TechRow) : List String :=
  let locs := parse_locations r.tsod
  let locs := if locs.isEmpty then (techNets r).filterMap derive_location_from_network else locs
  pySortedSet locs

/-- The per-row body of `convert_tech_services` (lines 287-305): cleaning,
classification, and the `obj` dict. -/
def rowToTech (r : TechRow) : TechEType × TechObj :=
  let svcRaw := pyOrOpt (ws_clean r.tipServisa) (ws_clean r.klass)
  let resVal := ws_clean r.tipRezervirovaniya
  let clsVal := ws_clean r.klass
  let nets := techNets r
  let locs := techLocs r
  let etype := classifyTech svcRaw clsVal resVal
  let obj : TechObj :=
    { title := ws_clean r.naimenovanie
      description := ws_clean r.opisanie
      location := locs
      network_connection := nets
      availabilityzone := []
      service_type :=
        if etype = .compute_services ∨ etype = .clusters
        then some (normalize_svc_type svcRaw) else none
      reservation_type := if etype = .clusters then some resVal else none
      role := if etype = .monitorings then some ["Monitoring"] else none
      ha := if etype = .monitorings then some resVal.isSome else none
      monitored_services := if etype = .monitorings then some [] else none
      path := if etype = .backups then some "/" else none
      backed_up_services := if etype = .backups then some [] else none }
  (etype, obj)

/-- The four `out_data` collections. -/
structure TechOut where
  compute_services : List (String × TechObj)
  clusters : List (String × TechObj)
  monitorings : List (String × TechObj)
  backups : List (String × TechObj)
deriving DecidableEq

def TechOut.empty : TechOut := ⟨[], [], [], []⟩

/-- `out_data[etype][oid] = obj` for a fresh `oid` (the `proc` set guarantees
freshness, so dict assignment is an append). -/
def TechOut.insert (o : TechOut) (e : TechEType) (k : String) (v : TechObj) : TechOut :=
  match e with
  | .compute_services => { o with compute_services := o.compute_services ++ [(k, v)] }
  | .clusters => { o with clusters := o.clusters ++ [(k, v)] }
  | .monitorings => { o with monitorings := o.monitorings ++ [(k, v)] }
  | .backups => { o with backups := o.backups ++ [(k, v)] }

def TechOut.find? (o : TechOut) (k : String) : Option TechObj :=
  match o.compute_services.lookup k with
  | some v => some v
  | none =>
    match o.clusters.lookup k with
    | some v => some v
    | none =>
      match o.monitorings.lookup k with
      | some v => some v
      | none => o.backups.lookup k

def TechOut.allKeys (o : TechOut) : List String :=
  o.compute_services.map Prod.fst ++ o.clusters.map Prod.fst ++
    o.monitorings.map Prod.fst ++ o.backups.map Prod.fst

/-- The row loop of `convert_tech_services`: rows with no cleaned ID or an
already-processed ID are skipped silently (`continue` — the loop records no
warning anywhere; the second component collects what the loop prints, which
is nothing). -/
def convertTechGo : List TechRow → List String → TechOut → TechOut × List String
  | [], _, out => (out, [])
  | r :: rest, proc, out =>
    match id_clean r.identifikator with
    | none => convertTechGo rest proc out
    | some oid =>
      if oid ∈ proc then convertTechGo rest proc out
      else
        let (etype, obj) := rowToTech r
        convertTechGo rest (proc ++ [oid]) (out.insert etype oid obj)

def convert_tech_services (rows : List TechRow) : TechOut × List String :=
  convertTechGo rows [] TechOut.empty

/-! ## Regions converter (`xlsx_to_yaml.convert_regions_az_dc_offices`,
the `Регионы` sheet) -/

/-- `rid.split('.')[-1]` — the external id. -/
def lastSeg (s : String) : String := (splitDots s).getLastD ""

structure RegionRow where
  idRegiona : Option String
  naimenovanie : Option String
  opisanie : Option String
deriving DecidableEq

structure RegionEnt where
  description : Option String
  external_id : String
  title : Option String
deriving DecidableEq

def rowToRegion (rid : String) (r : RegionRow) : RegionEnt :=
  { description := ws_clean r.opisanie
    external_id := lastSeg rid
    title := ws_clean r.naimenovanie }

/-- The duplicate-ID warning printed to stderr (row `index + 2`). -/
def dupWarn (fn rid : String) (idx : Nat) : String :=
  "WARN: Skipping duplicate ID '" ++ rid ++ "' in sheet 'Регионы', row "
    ++ toString (idx + 2) ++ " of '" ++ fn ++ "'."

/-- The missing-ID warning printed to stderr. -/
def missWarn (fn : String) (idx : Nat) : String :=
  "WARN: Skipping row " ++ toString (idx + 2)
    ++ " in sheet 'Регионы' of '" ++ fn ++ "' due to missing ID."

/-- The `Регионы` loop of `convert_regions_az_dc_offices`: rows carry their
pandas index (used in warning texts); a missing or duplicate cleaned ID skips
the row with a warning, otherwise the entity is stored under the cleaned ID. -/
def convertRegionsGo (fn : String) :
    List (Nat × RegionRow) → List String → List (String × RegionEnt) × List String
  | [], _ => ([], [])
  | (idx, r) :: rest, proc =>
    match id_clean r.idRegiona with
    | none =>
      ((convertRegionsGo fn rest proc).1, missWarn fn idx :: (convertRegionsGo fn rest proc).2)
    | some rid =>
      if rid ∈ proc then
        ((convertRegionsGo fn rest proc).1,
          dupWarn fn rid idx :: (convertRegionsGo fn rest proc).2)
      else
        ((rid, rowToRegion rid r) :: (convertRegionsGo fn rest (proc ++ [rid])).1,
          (convertRegionsGo fn rest (proc ++ [rid])).2)

def convert_regions (fn : String) (rows : List (Nat × RegionRow)) :
    List (String × RegionEnt) × List String :=
  convertRegionsGo fn rows []

/-! ## Device converter (`_seaf2_xlsx_to_yaml.convert_segments_nets_devices`,
lines 244-259: the `Сетевые устройства` sheet with multi-location fan-out) -/

structure DevRow where
  idUstroystva : Option String
  idUstroystva2 : Option String
  naimenovanie : Option String
  tipRealizatsii : Option String
  tipUstroystva : Option String
  tip : Option String
  podklyuchennyeSeti : Option String
  podklyuchennyeSeti2 : Option String
  raspolozhenieSegment : Option String
  segmentZona : Option String
  raspolozhenie : Option String
  modelCol : Option String
  naznachenie : Option String
  ipAdres : Option String
  opisanie : Option String
deriving DecidableEq

structure DevObj where
  title : String
  realization_type : Option String
  type : Option String
  network_connection : List String
  segment : Option String
  model : Option String
  purpose : Option String
  address : Option String
  description : Option String
  location : Option String
deriving DecidableEq

/-- The `obj` dict of the device loop before the location handling
(lines 252-255). -/
def rowToDevBase (r : DevRow) (did : String) : DevObj :=
  { title := (ws_clean r.naimenovanie).getD did
    realization_type := ws_clean r.tipRealizatsii
    type := ws_clean (pyOrCell r.tipUstroystva r.tip)
    network_connection :=
      parse_multiline_ids (pyOrCell r.podklyuchennyeSeti r.podklyuchennyeSeti2)
    segment := id_clean (pyOrCell r.raspolozhenieSegment r.segmentZona)
    model := ws_clean r.modelCol
    purpose := ws_clean r.naznachenie
    address := ws_clean r.ipAdres
    description := ws_clean r.opisanie
    location := none }

/-- The entities one device row contributes (lines 256-258): more than one
parsed location fans out into one entity per location with the ID suffixed by
the location's last dot-segment; otherwise one entity with at most one
location. -/
def rowDevEntities (r : DevRow) (did : String) : List (String × DevObj) :=
  let locs := parse_locations r.raspolozhenie
  let obj := rowToDevBase r did
  if locs.length > 1 then
    locs.map (fun l => (did ++ "-" ++ lastSeg l, { obj with location := some l }))
  else
    [(did, { obj with location := locs.head? })]

/-- Python dict assignment `devs[k] = v`: replace in place or append. -/
def upsert (l : List (String × DevObj)) (k : String) (v : DevObj) : List (String × DevObj) :=
  if (l.lookup k).isSome then l.map (fun kv => if kv.1 = k then (k, v) else kv)
  else l ++ [(k, v)]

def upsertAll (devs : List (String × DevObj)) (es : List (String × DevObj)) :
    List (String × DevObj) :=
  es.foldl (fun d kv => upsert d kv.1 kv.2) devs

/-- The device row loop: duplicate device IDs are skipped via the `proc` set,
then the row's entities are assigned into the `devs` dict. -/
def convertDevicesGo : List DevRow → List String → List (String × DevObj) →
    List (String × DevObj)
  | [], _, devs => devs
  | r :: rest, proc, devs =>
    match id_clean (pyOrCell r.idUstroystva r.idUstroystva2) with
    | none => convertDevicesGo rest proc devs
    | some did =>
      if did ∈ proc then convertDevicesGo rest proc devs
      else convertDevicesGo rest (proc ++ [did]) (upsertAll devs (rowDevEntities r did))

def convert_devices (rows : List DevRow) : List (String × DevObj) :=
  convertDevicesGo rows [] []

/-! ## C1/C4: first-row-wins characterization and ID uniqueness -/

theorem lookup_append {β : Type} (l₁ l₂ : List (String × β)) (k : String) :
    (l₁ ++ l₂).lookup k =
      match l₁.lookup k with
      | some v => some v
      | none => l₂.lookup k := by
  induction l₁ with
  | nil => simp [List.lookup]
  | cons kv l ih =>
    by_cases h : k == kv.1
    · simp [List.lookup, h]
    · simp only [List.cons_append, List.lookup, h]
      exact ih

theorem lookup_isSome_iff {β : Type} :
    ∀ (l : List (String × β)) (k : String), (l.lookup k).isSome ↔ k ∈ l.map Prod.fst := by
  intro l k
  induction l with
  | nil => simp [List.lookup]
  | cons kv l ih =>
    by_cases h : k == kv.1
    · simp [List.lookup, h]
      exact Or.inl (by simpa using h)
    · simp only [List.lookup, h, List.map_cons, List.mem_cons]
      rw [ih]
      constructor
      · exact Or.inr
      · rintro (heq | hm)
        · exact absurd (beq_iff_eq.mpr heq) (by simpa using h)
        · exact hm

theorem TechOut.find?_eq_none_iff (o : TechOut) (k : String) :
    o.find? k = none ↔
      o.compute_services.lookup k = none ∧ o.clusters.lookup k = none ∧
        o.monitorings.lookup k = none ∧ o.backups.lookup k = none := by
  unfold TechOut.find?
  rcases h1 : o.compute_services.lookup k with - | v1 <;>
    rcases h2 : o.clusters.lookup k with - | v2 <;>
      rcases h3 : o.monitorings.lookup k with - | v3 <;> simp

theorem TechOut.find?_isSome_iff (o : TechOut) (k : String) :
    (o.find? k).isSome ↔ k ∈ o.allKeys := by
  unfold TechOut.find? TechOut.allKeys
  rcases h1 : o.compute_services.lookup k with - | v1 <;>
    rcases h2 : o.clusters.lookup k with - | v2 <;>
      rcases h3 : o.monitorings.lookup k with - | v3 <;>
        rcases h4 : o.backups.lookup k with - | v4 <;>
  · have m1 := (lookup_isSome_iff o.compute_services k)
    have m2 := (lookup_isSome_iff o.clusters k)
    have m3 := (lookup_isSome_iff o.monitorings k)
    have m4 := (lookup_isSome_iff o.backups k)
    rw [h1] at m1; rw [h2] at m2; rw [h3] at m3; rw [h4] at m4
    simp only [Option.isSome_none, Option.isSome_some] at m1 m2 m3 m4 ⊢
    simp [List.mem_append, ← m1, ← m2, ← m3, ← m4]

theorem TechOut.insert_find?_self (o : TechOut) (e : TechEType) (k : String) (v : TechObj)
    (h : o.find? k = none) :
    (o.insert e k v).find? k = some v := by
  obtain ⟨h1, h2, h3, h4⟩ := (o.find?_eq_none_iff k).mp h
  cases e <;>
    simp [TechOut.insert, TechOut.find?, lookup_append, h1, h2, h3, h4, List.lookup]

theorem TechOut.insert_find?_ne (o : TechOut) (e : TechEType) (k : String) (v : TechObj)
    (k' : String) (h : ¬k' = k) :
    (o.insert e k v).find? k' = o.find? k' := by
  have hbeq : (k' == k) = false := beq_eq_false_iff_ne.mpr h
  cases e <;>
    · simp only [TechOut.insert, TechOut.find?, lookup_append, List.lookup, hbeq]
      rcases o.compute_services.lookup k' with - | v1 <;>
        rcases o.clusters.lookup k' with - | v2 <;>
          rcases o.monitorings.lookup k' with - | v3 <;>
            rcases o.backups.lookup k' with - | v4 <;> simp

theorem convertTechGo_find? :
    ∀ (rows : List TechRow) (proc : List String) (out : TechOut) (k : String),
      (∀ k', k' ∈ proc ↔ (out.find? k').isSome) →
      (convertTechGo rows proc out).1.find? k =
        match out.find? k with
        | some v => some v
        | none => (rows.find? (fun r => id_clean r.identifikator == some k)).map
            (fun r => (rowToTech r).2)
  | [], proc, out, k, _ => by
    simp only [convertTechGo, List.find?_nil, Option.map_none']
    rcases out.find? k with - | v <;> rfl
  | r :: rest, proc, out, k, hinv => by
    rcases hid : id_clean r.identifikator with - | oid
    · have hpred : (id_clean r.identifikator == some k) = false := by
        rw [hid]; rfl
      simp only [convertTechGo, hid, List.find?_cons, hpred]
      exact convertTechGo_find? rest proc out k hinv
    · by_cases hproc : oid ∈ proc
      · simp only [convertTechGo, hid, hproc, if_true]
        by_cases hk : k = oid
        · subst hk
          have hsome : (out.find? k).isSome := (hinv k).mp hproc
          rcases hv : out.find? k with - | v
          · rw [hv] at hsome; cases hsome
          · have := convertTechGo_find? rest proc out k hinv
            rw [this, hv]
        · have hpred : (id_clean r.identifikator == some k) = false := by
            rw [hid]
            exact beq_eq_false_iff_ne.mpr (fun hc => hk (Option.some.inj hc).symm)
          simp only [List.find?_cons, hpred]
          exact convertTechGo_find? rest proc out k hinv
      · have hfresh : out.find? oid = none := by
          rcases hv : out.find? oid with - | v
          · rfl
          · exact absurd ((hinv oid).mpr (by rw [hv]; rfl)) hproc
        have hinv' : ∀ k', k' ∈ proc ++ [oid] ↔
            ((out.insert (rowToTech r).1 oid (rowToTech r).2).find? k').isSome := by
          intro k'
          by_cases hk' : k' = oid
          · subst hk'
            rw [TechOut.insert_find?_self _ _ _ _ hfresh]
            simp
          · rw [TechOut.insert_find?_ne _ _ _ _ _ hk']
            rw [← hinv k']
            simp [hk']
        simp only [convertTechGo, hid, hproc, if_false]
        have := convertTechGo_find? rest (proc ++ [oid])
          (out.insert (rowToTech r).1 oid (rowToTech r).2) k hinv'
        rw [this]
        by_cases hk : k = oid
        · subst hk
          rw [TechOut.insert_find?_self _ _ _ _ hfresh, hfresh]
          have hpred : (id_clean r.identifikator == some k) = true := by
            rw [hid]; simp
          simp [List.find?_cons, hpred]
        · rw [TechOut.insert_find?_ne _ _ _ _ _ hk]
          have hpred : (id_clean r.identifikator == some k) = false := by
            rw [hid]
            exact beq_eq_false_iff_ne.mpr (fun hc => hk (Option.some.inj hc).symm)
          simp [List.find?_cons, hpred]

/-- C1 (amended): `convert_tech_services` does not merge rows sharing an ID —
a repeated cleaned identifier is skipped entirely, so the entity produced for
an ID is exactly the conversion of the *first* row bearing that ID (its
`network_connection` and `location` come from that row alone), and later rows'
data is discarded. -/
theorem convert_tech_services_first_row_wins (rows : List TechRow) (k : String) :
    (convert_tech_services rows).1.find? k =
      (rows.find? (fun r => id_clean r.identifikator == some k)).map
        (fun r => (rowToTech r).2) := by
  have hempty : ∀ k', k' ∈ ([] : List String) ↔ ((TechOut.empty).find? k').isSome := by
    intro k'
    simp [TechOut.empty, TechOut.find?, List.lookup]
  have := convertTechGo_find? rows [] TechOut.empty k hempty
  unfold convert_tech_services
  rw [this]
  simp [TechOut.empty, TechOut.find?, List.lookup]

def techRowDb1 (net : String) : TechRow :=
  ⟨some "org.svc.db1", some "СУБД", none, none, some net, none, none, some "DB", none⟩

/-- C1 counterexample: two `Тех. сервисы` rows with the same ID
`org.svc.db1`, one listing network `N1` and one listing `N2`, do **not**
merge: the produced entity keeps only the first row's
`network_connection = [N1]`, not the union `[N1, N2]`. -/
theorem convert_tech_services_no_merge_counterexample :
    ((convert_tech_services [techRowDb1 "N1", techRowDb1 "N2"]).1.find? "org.svc.db1").map
        (fun o => o.network_connection) = some ["N1"] ∧
    ¬((convert_tech_services [techRowDb1 "N1", techRowDb1 "N2"]).1.find? "org.svc.db1").map
        (fun o => o.network_connection) = some ["N1", "N2"] := by
  exact ⟨by decide, by decide⟩

theorem convertRegionsGo_nodup (fn : String) :
    ∀ (rows : List (Nat × RegionRow)) (proc : List String),
      ((convertRegionsGo fn rows proc).1.map Prod.fst).Nodup ∧
        ∀ k ∈ (convertRegionsGo fn rows proc).1.map Prod.fst, ¬k ∈ proc
  | [], proc => by simp [convertRegionsGo]
  | (idx, r) :: rest, proc => by
    rcases hid : id_clean r.idRegiona with - | rid
    · simp only [convertRegionsGo, hid]
      exact convertRegionsGo_nodup fn rest proc
    · by_cases hproc : rid ∈ proc
      · simp only [convertRegionsGo, hid, hproc, if_true]
        exact convertRegionsGo_nodup fn rest proc
      · have ih := convertRegionsGo_nodup fn rest (proc ++ [rid])
        simp only [convertRegionsGo, hid, hproc, if_false, List.map_cons, List.nodup_cons]
        refine ⟨⟨?_, ih.1⟩, ?_⟩
        · intro hmem
          exact ih.2 rid hmem (by simp)
        · intro k hk
          rcases List.mem_cons.mp hk with rfl | hk'
          · exact hproc
          · intro hkp
            exact ih.2 k hk' (by simp [hkp])

theorem convertRegionsGo_lookup (fn : String) :
    ∀ (rows : List (Nat × RegionRow)) (proc : List String) (k : String),
      (convertRegionsGo fn rows proc).1.lookup k =
        if k ∈ proc then none
        else (rows.find? (fun ir => id_clean ir.2.idRegiona == some k)).map
          (fun ir => rowToRegion k ir.2)
  | [], proc, k => by
    simp only [convertRegionsGo, List.lookup, List.find?_nil, Option.map_none']
    rcases Decidable.em (k ∈ proc) with h | h <;> simp [h]
  | (idx, r) :: rest, proc, k => by
    rcases hid : id_clean r.idRegiona with - | rid
    · have hpred : (id_clean r.idRegiona == some k) = false := by rw [hid]; rfl
      simp only [convertRegionsGo, hid, List.find?_cons, hpred]
      exact convertRegionsGo_lookup fn rest proc k
    · by_cases hproc : rid ∈ proc
      · simp only [convertRegionsGo, hid, hproc, if_true]
        by_cases hk : k = rid
        · subst hk
          rw [convertRegionsGo_lookup fn rest proc k, if_pos hproc]
          have hpred : (id_clean r.idRegiona == some k) = true := by rw [hid]; simp
          rw [if_pos hproc]
        · have hpred : (id_clean r.idRegiona == some k) = false := by
            rw [hid]
            exact beq_eq_false_iff_ne.mpr (fun hc => hk (Option.some.inj hc).symm)
          simp only [List.find?_cons, hpred]
          exact convertRegionsGo_lookup fn rest proc k
      · simp only [convertRegionsGo, hid, hproc, if_false]
        by_cases hk : k = rid
        · subst hk
          have hpred : (id_clean r.idRegiona == some k) = true := by rw [hid]; simp
          simp only [List.lookup, beq_self_eq_true, if_neg hproc, List.find?_cons, hpred]
          rfl
        · have hkbeq : (k == rid) = false := beq_eq_false_iff_ne.mpr hk
          have hpred : (id_clean r.idRegiona == some k) = false := by
            rw [hid]
            exact beq_eq_false_iff_ne.mpr (fun hc => hk (Option.some.inj hc).symm)
          simp only [List.lookup, hkbeq, List.find?_cons, hpred]
          rw [convertRegionsGo_lookup fn rest (proc ++ [rid]) k]
          by_cases hkp : k ∈ proc
          · rw [if_pos (by simp [hkp]), if_pos hkp]
          · rw [if_neg (by simp [hkp, hk]), if_neg hkp]
  termination_by rows => rows.length

theorem convertRegionsGo_warn_of_proc (fn : String) :
    ∀ (rows : List (Nat × RegionRow)) (proc : List String) (idx : Nat) (r : RegionRow)
      (rid : String), (idx, r) ∈ rows → id_clean r.idRegiona = some rid → rid ∈ proc →
      dupWarn fn rid idx ∈ (convertRegionsGo fn rows proc).2
  | [], _, _, _, _, hmem, _, _ => absurd hmem (List.not_mem_nil _)
  | (jdx, q) :: rest, proc, idx, r, rid, hmem, hid, hproc => by
    rcases List.mem_cons.mp hmem with heq | hmem'
    · obtain ⟨rfl, rfl⟩ : jdx = idx ∧ q = r := by
        exact ⟨congrArg Prod.fst heq.symm, congrArg Prod.snd heq.symm⟩
      simp only [convertRegionsGo, hid, hproc, if_true]
      exact List.mem_cons_self _ _
    · rcases hq : id_clean q.idRegiona with - | qid
      · simp only [convertRegionsGo, hq]
        exact List.mem_cons_of_mem _
          (convertRegionsGo_warn_of_proc fn rest proc idx r rid hmem' hid hproc)
      · by_cases hqp : qid ∈ proc
        · simp only [convertRegionsGo, hq, hqp, if_true]
          exact List.mem_cons_of_mem _
            (convertRegionsGo_warn_of_proc fn rest proc idx r rid hmem' hid hproc)
        · simp only [convertRegionsGo, hq, hqp, if_false]
          exact convertRegionsGo_warn_of_proc fn rest (proc ++ [qid]) idx r rid hmem' hid
            (by simp [hproc])

theorem convertRegionsGo_dup_warn (fn : String) :
    ∀ (pre : List (Nat × RegionRow)) (jdx : Nat) (r' : RegionRow) (mid : List (Nat × RegionRow))
      (idx : Nat) (r : RegionRow) (post : List (Nat × RegionRow)) (rid : String)
      (proc : List String),
      id_clean r'.idRegiona = some rid → id_clean r.idRegiona = some rid →
      dupWarn fn rid idx ∈
        (convertRegionsGo fn (pre ++ (jdx, r') :: mid ++ (idx, r) :: post) proc).2
  | [], jdx, r', mid, idx, r, post, rid, proc, hid', hid => by
    have hmem : (idx, r) ∈ mid ++ (idx, r) :: post := by simp
    by_cases hproc : rid ∈ proc
    · simp only [List.nil_append, convertRegionsGo, hid', hproc, if_true]
      exact List.mem_cons_of_mem _
        (convertRegionsGo_warn_of_proc fn (mid ++ (idx, r) :: post) proc idx r rid hmem hid
          hproc)
    · simp only [List.nil_append, convertRegionsGo, hid', hproc, if_false]
      exact convertRegionsGo_warn_of_proc fn (mid ++ (idx, r) :: post) (proc ++ [rid]) idx r
        rid hmem hid (by simp)
  | (kdx, q) :: pre', jdx, r', mid, idx, r, post, rid, proc, hid', hid => by
    rcases hq : id_clean q.idRegiona with - | qid
    · simp only [List.cons_append, convertRegionsGo, hq]
      exact List.mem_cons_of_mem _
        (convertRegionsGo_dup_warn fn pre' jdx r' mid idx r post rid proc hid' hid)
    · by_cases hqp : qid ∈ proc
      · simp only [List.cons_append, convertRegionsGo, hq, hqp, if_true]
        exact List.mem_cons_of_mem _
          (convertRegionsGo_dup_warn fn pre' jdx r' mid idx r post rid proc hid' hid)
      · simp only [List.cons_append, convertRegionsGo, hq, hqp, if_false]
        exact convertRegionsGo_dup_warn fn pre' jdx r' mid idx r post rid (proc ++ [qid])
          hid' hid

theorem TechOut.insert_allKeys_mem (o : TechOut) (e : TechEType) (k : String) (v : TechObj)
    (k' : String) : k' ∈ (o.insert e k v).allKeys ↔ k' = k ∨ k' ∈ o.allKeys := by
  cases e <;>
    · simp only [TechOut.insert, TechOut.allKeys, List.map_append, List.map_cons, List.map_nil,
        List.mem_append, List.mem_cons, List.not_mem_nil, or_false]
      tauto

theorem TechOut.insert_allKeys_nodup (o : TechOut) (e : TechEType) (k : String) (v : TechObj)
    (hnd : o.allKeys.Nodup) (hk : ¬k ∈ o.allKeys) :
    (o.insert e k v).allKeys.Nodup := by
  unfold TechOut.allKeys at hnd hk
  cases e with
  | compute_services =>
    have h : (o.insert .compute_services k v).allKeys
        = List.map Prod.fst o.compute_services ++ k ::
            (List.map Prod.fst o.clusters ++ (List.map Prod.fst o.monitorings
              ++ List.map Prod.fst o.backups)) := by
      simp [TechOut.insert, TechOut.allKeys, List.map_append, List.append_assoc]
    rw [h, List.nodup_middle, List.nodup_cons]
    simp only [List.append_assoc] at hnd hk ⊢
    exact ⟨hk, hnd⟩
  | clusters =>
    have h : (o.insert .clusters k v).allKeys
        = (List.map Prod.fst o.compute_services ++ List.map Prod.fst o.clusters) ++ k ::
            (List.map Prod.fst o.monitorings ++ List.map Prod.fst o.backups) := by
      simp [TechOut.insert, TechOut.allKeys, List.map_append, List.append_assoc]
    rw [h, List.nodup_middle, List.nodup_cons]
    simp only [List.append_assoc] at hnd hk ⊢
    exact ⟨hk, hnd⟩
  | monitorings =>
    have h : (o.insert .monitorings k v).allKeys
        = (List.map Prod.fst o.compute_services ++ (List.map Prod.fst o.clusters
            ++ List.map Prod.fst o.monitorings)) ++ k :: List.map Prod.fst o.backups := by
      simp [TechOut.insert, TechOut.allKeys, List.map_append, List.append_assoc]
    rw [h, List.nodup_middle, List.nodup_cons]
    simp only [List.append_assoc] at hnd hk ⊢
    exact ⟨hk, hnd⟩
  | backups =>
    have h : (o.insert .backups k v).allKeys
        = (List.map Prod.fst o.compute_services ++ (List.map Prod.fst o.clusters
            ++ (List.map Prod.fst o.monitorings ++ List.map Prod.fst o.backups))) ++ k :: [] := by
      simp [TechOut.insert, TechOut.allKeys, List.map_append, List.append_assoc]
    rw [h, List.nodup_middle, List.nodup_cons]
    simp only [List.append_assoc, List.append_nil] at hnd hk ⊢
    exact ⟨hk, hnd⟩

theorem convertTechGo_nodup :
    ∀ (rows : List TechRow) (proc : List String) (out : TechOut),
      out.allKeys.Nodup → (∀ k, k ∈ out.allKeys → k ∈ proc) →
      (convertTechGo rows proc out).1.allKeys.Nodup
  | [], _, out, hnd, _ => hnd
  | r :: rest, proc, out, hnd, hsub => by
    rcases hid : id_clean r.identifikator with - | oid
    · simp only [convertTechGo, hid]
      exact convertTechGo_nodup rest proc out hnd hsub
    · by_cases hproc : oid ∈ proc
      · simp only [convertTechGo, hid, hproc, if_true]
        exact convertTechGo_nodup rest proc out hnd hsub
      · simp only [convertTechGo, hid, hproc, if_false]
        have hnd' : (out.insert (rowToTech r).1 oid (rowToTech r).2).allKeys.Nodup :=
          out.insert_allKeys_nodup _ _ _ hnd (fun hm => hproc (hsub oid hm))
        have hsub' : ∀ k, k ∈ (out.insert (rowToTech r).1 oid (rowToTech r).2).allKeys →
            k ∈ proc ++ [oid] := by
          intro k hk
          rcases (out.insert_allKeys_mem _ _ _ k).mp hk with rfl | hk'
          · simp
          · simp [hsub k hk']
        exact convertTechGo_nodup rest (proc ++ [oid])
          (out.insert (rowToTech r).1 oid (rowToTech r).2) hnd' hsub'

/-- C4 (amended): within one conversion run no two produced entities share an
ID: a row whose cleaned ID equals that of an already-processed row is dropped
(the stored entity is always the conversion of the *first* row bearing the
ID), so every produced collection — including the union of the four
tech-service collections — maps each ID to at most one entity. The
`xlsx_to_yaml.py` converters record a warning for every dropped duplicate;
the seaf2 tech-services converter drops silently (see the counterexample). -/
theorem conversion_id_uniqueness :
    (∀ fn rows, ((convert_regions fn rows).1.map Prod.fst).Nodup) ∧
    (∀ fn rows k, (convert_regions fn rows).1.lookup k =
      (rows.find? (fun ir => id_clean ir.2.idRegiona == some k)).map
        (fun ir => rowToRegion k ir.2)) ∧
    (∀ fn (pre : List (Nat × RegionRow)) jdx r' mid idx r post rid,
      id_clean r'.idRegiona = some rid → id_clean r.idRegiona = some rid →
      dupWarn fn rid idx ∈
        (convert_regions fn (pre ++ (jdx, r') :: mid ++ (idx, r) :: post)).2) ∧
    (∀ rows, (convert_tech_services rows).1.allKeys.Nodup) := by
  refine ⟨?_, ?_, ?_, ?_⟩
  · intro fn rows
    exact (convertRegionsGo_nodup fn rows []).1
  · intro fn rows k
    have := convertRegionsGo_lookup fn rows [] k
    simpa [convert_regions] using this
  · intro fn pre jdx r' mid idx r post rid hid' hid
    exact convertRegionsGo_dup_warn fn pre jdx r' mid idx r post rid [] hid' hid
  · intro rows
    exact convertTechGo_nodup rows [] TechOut.empty (by simp [TechOut.empty, TechOut.allKeys])
      (by simp [TechOut.empty, TechOut.allKeys])

def regRowR1 : RegionRow := ⟨some "org.r1", some "T", none⟩

/-- Witness for C4: a concrete `Регионы` sheet with a duplicated ID keeps one
entity and records the duplicate warning for the later row. -/
theorem conversion_id_uniqueness_witness :
    dupWarn "f.xlsx" "org.r1" 1 ∈
      (convert_regions "f.xlsx" ([] ++ (0, regRowR1) :: [] ++ (1, regRowR1) :: [])).2 :=
  conversion_id_uniqueness.2.2.1 "f.xlsx" [] 0 regRowR1 [] 1 regRowR1 [] "org.r1"
    (by decide) (by decide)

/-- C4 counterexample: in the seaf2 tech-services converter a duplicate-ID row
is dropped (one entity remains for `org.svc.db1`) but **no** warning is
recorded — the loop skips the row with a bare `continue`, so the claim's
"a warning is recorded" does not hold for every sheet. -/
theorem tech_dup_silent_counterexample :
    id_clean (techRowDb1 "N2").identifikator = id_clean (techRowDb1 "N1").identifikator ∧
    (convert_tech_services [techRowDb1 "N1", techRowDb1 "N2"]).1.allKeys = ["org.svc.db1"] ∧
    (convert_tech_services [techRowDb1 "N1", techRowDb1 "N2"]).2 = [] := by
  exact ⟨by decide, by decide, by decide⟩

/-! ## C3: multi-location fan-out for network devices -/

theorem str_append_cancel {p x y : String} (h : p ++ x = p ++ y) : x = y := by
  have hd : p.data ++ x.data = p.data ++ y.data := by
    have := congrArg String.data h
    simpa [String.data_append] using this
  exact congrArg String.mk (List.append_cancel_left hd)

theorem upsert_fresh (d : List (String × DevObj)) (k : String) (v : DevObj)
    (h : d.lookup k = none) : upsert d k v = d ++ [(k, v)] := by
  unfold upsert
  rw [h]
  rfl

theorem upsertAll_fresh :
    ∀ (es d : List (String × DevObj)), (es.map Prod.fst).Nodup →
      (∀ k ∈ es.map Prod.fst, d.lookup k = none) → upsertAll d es = d ++ es
  | [], d, _, _ => by simp [upsertAll]
  | (k, v) :: es, d, hnd, hfresh => by
    have hk : d.lookup k = none := hfresh k (by simp)
    have hnd' : k ∉ es.map Prod.fst ∧ (es.map Prod.fst).Nodup := by
      rw [List.map_cons, List.nodup_cons] at hnd
      exact hnd
    unfold upsertAll
    simp only [List.foldl_cons]
    rw [show upsert d k v = d ++ [(k, v)] from upsert_fresh d k v hk]
    have hfresh' : ∀ k' ∈ es.map Prod.fst, (d ++ [(k, v)]).lookup k' = none := by
      intro k' hk'
      rw [lookup_append, hfresh k' (by simp [hk'])]
      have hne : ¬k' = k := fun hc => hnd'.1 (hc ▸ hk')
      simp [List.lookup, beq_eq_false_iff_ne.mpr hne]
    have hrec := upsertAll_fresh es (d ++ [(k, v)]) hnd'.2 hfresh'
    unfold upsertAll at hrec
    rw [hrec]
    simp

/-- C3 (amended): a device row with more than one parsed location fans out
into one entity per location — each holding exactly one location, with ID the
base device ID suffixed by `-` and the location's last dot-segment — provided
those suffixes are pairwise distinct (suffix collisions collapse entities in
the dict, see the counterexample); a row with zero or one parsed location
yields exactly one entity holding at most one location. -/
theorem device_multi_location_fanout (r : DevRow) (did : String)
    (hid : id_clean (pyOrCell r.idUstroystva r.idUstroystva2) = some did) :
    (1 < (parse_locations r.raspolozhenie).length →
      ((parse_locations r.raspolozhenie).map lastSeg).Nodup →
      convert_devices [r] = (parse_locations r.raspolozhenie).map
        (fun l => (did ++ "-" ++ lastSeg l, { rowToDevBase r did with location := some l }))) ∧
    ((parse_locations r.raspolozhenie).length ≤ 1 →
      convert_devices [r] = [(did,
        { rowToDevBase r did with location := (parse_locations r.raspolozhenie).head? })]) := by
  have hconv : convert_devices [r] = upsertAll [] (rowDevEntities r did) := by
    unfold convert_devices convertDevicesGo
    rw [hid]
    simp [convertDevicesGo]
  constructor
  · intro hlen hnd
    have hlocs : ¬(parse_locations r.raspolozhenie).length ≤ 1 := by omega
    have hents : rowDevEntities r did = (parse_locations r.raspolozhenie).map
        (fun l => (did ++ "-" ++ lastSeg l, { rowToDevBase r did with location := some l })) := by
      unfold rowDevEntities
      rw [if_pos (by omega)]
    have hkeys : ((rowDevEntities r did).map Prod.fst).Nodup := by
      rw [hents, List.map_map]
      have : (Prod.fst ∘ fun l => (did ++ "-" ++ lastSeg l,
          { rowToDevBase r did with location := some l }))
          = (fun x => did ++ "-" ++ x) ∘ lastSeg := rfl
      rw [this, ← List.map_map]
      refine hnd.map ?_
      intro x y hxy
      exact str_append_cancel (p := did ++ "-") (by simpa using hxy)
    rw [hconv, upsertAll_fresh _ _ hkeys (by intro k _; rfl), List.nil_append, hents]
  · intro hlen
    have hents : rowDevEntities r did = [(did,
        { rowToDevBase r did with location := (parse_locations r.raspolozhenie).head? })] := by
      unfold rowDevEntities
      rw [if_neg (by omega)]
    rw [hconv, hents]
    simp [upsertAll, upsert, List.lookup]

def devRow17 : DevRow :=
  ⟨some "org.netdev.17", none, none, some "Физический", some "Маршрутизатор", none,
   none, none, some "org.seg.zz", none, some "org.dc.1 org.dc.2", none, none, none, none⟩

/-- Witness for C3: the spec scenario row `org.netdev.17` located at
`org.dc.1 org.dc.2` fans out into `org.netdev.17-1` and `org.netdev.17-2`,
each single-located. -/
theorem device_multi_location_fanout_witness :
    convert_devices [devRow17] = (parse_locations devRow17.raspolozhenie).map
      (fun l => ("org.netdev.17" ++ "-" ++ lastSeg l,
        { rowToDevBase devRow17 "org.netdev.17" with location := some l })) :=
  (device_multi_location_fanout devRow17 "org.netdev.17" (by decide)).1 (by decide) (by decide)

def devRowClash : DevRow :=
  ⟨some "org.netdev.17", none, none, some "Физический", some "Маршрутизатор", none,
   none, none, none, none, some "org.dc.1 foo.1", none, none, none, none⟩

/-- C3 counterexample: a row whose two locations `org.dc.1` and `foo.1` share
the last dot-segment `1` produces **one** entity, not one per location — the
fan-out keys collide in the dict and the later location overwrites the
earlier. -/
theorem device_fanout_counterexample :
    (parse_locations devRowClash.raspolozhenie).length = 2 ∧
    (convert_devices [devRowClash]).length = 1 ∧
    (convert_devices [devRowClash]).map (fun kv => kv.2.location) = [some "foo.1"] := by
  exact ⟨by decide, by decide, by decide⟩

/-! ## Typed validator (`xlsx_to_yaml.validate_refs`, lines 519-572, over the
well-typed produced graph: absent/falsy list fields are `[]`, absent/falsy
scalar fields are `none`; `regions`/`dcs`/`offices` carry the fields the
checks read). -/

structure AZEnt where
  region : Option String
deriving DecidableEq

structure DCEnt where
  availabilityzone : Option String
deriving DecidableEq

structure OfficeEnt where
  region : Option String
deriving DecidableEq

structure SegmentEnt where
  sberLocation : Option String
deriving DecidableEq

structure NetworkEnt where
  segment : List String
  location : List String
deriving DecidableEq

structure KBEnt where
  network_connection : List String
deriving DecidableEq

structure DeviceEnt where
  segment : Option String
  network_connection : List String
deriving DecidableEq

/-- The produced entity graph the validator loads (region entities carry no
field any check reads, so only their IDs appear). -/
structure Graph where
  regions : List String
  azs : List (String × AZEnt)
  dcs : List (String × DCEnt)
  offices : List (String × OfficeEnt)
  segments : List (String × SegmentEnt)
  networks : List (String × NetworkEnt)
  kbs : List (String × KBEnt)
  devices : List (String × DeviceEnt)

def Graph.regionIds (g : Graph) : List String := g.regions
def Graph.azIds (g : Graph) : List String := g.azs.map Prod.fst
def Graph.dcIds (g : Graph) : List String := g.dcs.map Prod.fst
def Graph.officeIds (g : Graph) : List String := g.offices.map Prod.fst
def Graph.segIds (g : Graph) : List String := g.segments.map Prod.fst
def Graph.netIds (g : Graph) : List String := g.networks.map Prod.fst

def azErr (i r : String) : String := "AZ " ++ i ++ " refs missing Region " ++ r
def dcErr (i az : String) : String := "DC " ++ i ++ " refs missing AZ " ++ az
def officeErr (i r : String) : String := "Office " ++ i ++ " refs missing Region " ++ r
def segLocErr (i loc : String) : String := "Segment " ++ i ++ " has unknown location " ++ loc
def netSegErr (i s : String) : String := "Network " ++ i ++ " refs missing Segment " ++ s
def netLocErr (i l : String) : String := "Network " ++ i ++ " has unknown location " ++ l
def kbWarnMsg (i net : String) : String := "KB service " ++ i ++ " refs missing Network " ++ net
def devSegErr (i s : String) : String := "Device " ++ i ++ " refs missing Segment " ++ s
def devNetErr (i n : String) : String := "Device " ++ i ++ " refs missing Network " ++ n
def netLocConsErr (nid loc : String) : String :=
  "Network '" ++ nid ++ "' is in location '" ++ loc
    ++ "', but none of its associated segments exist in that location."

def azChecks (g : Graph) : List String :=
  g.azs.flatMap (fun iv =>
    match iv.2.region with
    | some r => if r ∈ g.regionIds then [] else [azErr iv.1 r]
    | none => [])

def dcChecks (g : Graph) : List String :=
  g.dcs.flatMap (fun iv =>
    match iv.2.availabilityzone with
    | some az => if az ∈ g.azIds then [] else [dcErr iv.1 az]
    | none => [])

def officeChecks (g : Graph) : List String :=
  g.offices.flatMap (fun iv =>
    match iv.2.region with
    | some r => if r ∈ g.regionIds then [] else [officeErr iv.1 r]
    | none => [])

def segChecks (g : Graph) : List String :=
  g.segments.flatMap (fun iv =>
    match iv.2.sberLocation with
    | some loc =>
      if ¬loc ∈ g.dcIds ∧ ¬loc ∈ g.officeIds then [segLocErr iv.1 loc] else []
    | none => [])

def netChecks (g : Graph) : List String :=
  g.networks.flatMap (fun iv =>
    (iv.2.segment.filter (fun s => ¬s ∈ g.segIds)).map (netSegErr iv.1)
      ++ (iv.2.location.filter (fun l => ¬l ∈ g.dcIds ∧ ¬l ∈ g.officeIds)).map
        (netLocErr iv.1))

def kbWarns (g : Graph) : List String :=
  g.kbs.flatMap (fun iv =>
    (iv.2.network_connection.filter (fun net => ¬net ∈ g.netIds)).map (kbWarnMsg iv.1))

def devChecks (g : Graph) : List String :=
  g.devices.flatMap (fun iv =>
    (match iv.2.segment with
     | some s => if ¬s ∈ g.segIds then [devSegErr iv.1 s] else []
     | none => [])
      ++ (iv.2.network_connection.filter (fun n => ¬n ∈ g.netIds)).map (devNetErr iv.1))

/-- `{seg.sber.location | seg ∈ net.segment, seg present in segments}` — the
`segment_locs` set of the location-consistency check. -/
def segmentLocs (g : Graph) (n : NetworkEnt) : List String :=
  n.segment.filterMap (fun sid => (g.segments.lookup sid).bind (fun s => s.sberLocation))

/-- The network-location-vs-segment-location check (lines 559-572). -/
def netLocConsChecks (g : Graph) : List String :=
  g.networks.flatMap (fun iv =>
    if iv.2.location.isEmpty then []
    else (iv.2.location.filter (fun loc => ¬loc ∈ segmentLocs g iv.2)).map
      (netLocConsErr iv.1))

structure Report where
  errors : List String
  warnings : List String
deriving DecidableEq

/-- `validate_refs` over the typed graph: the checks in source order, errors
and warnings accumulated by appending. -/
def validate_refs_typed (g : Graph) : Report :=
  { errors := azChecks g ++ dcChecks g ++ officeChecks g ++ segChecks g ++ netChecks g
      ++ devChecks g ++ netLocConsChecks g
    warnings := kbWarns g }

theorem segmentLocs_mem_iff (g : Graph) (n : NetworkEnt) (loc : String) :
    loc ∈ segmentLocs g n ↔
      ∃ sid ∈ n.segment, ∃ s : SegmentEnt, g.segments.lookup sid = some s ∧
        s.sberLocation = some loc := by
  unfold segmentLocs
  rw [List.mem_filterMap]
  constructor
  · rintro ⟨sid, hsid, hbind⟩
    rcases hlk : g.segments.lookup sid with - | s
    · rw [hlk] at hbind; cases hbind
    · rw [hlk] at hbind
      exact ⟨sid, hsid, s, hlk, by simpa using hbind⟩
  · rintro ⟨sid, hsid, s, hlk, hloc⟩
    exact ⟨sid, hsid, by rw [hlk]; simpa using hloc⟩

/-- C5: for every network in the produced graph with a non-empty declared
location list, the validator emits the location-consistency error naming the
network and the location for each declared location at which none of the
network's associated segments (those of its segment list present in the
segment collection, located via their `sber.location`) is located; and the
check passes without error precisely when every declared location of every
network is shared by at least one associated segment. -/
theorem network_location_consistency_check (g : Graph) :
    (∀ nid n, (nid, n) ∈ g.networks → ∀ loc ∈ n.location,
      (¬∃ sid ∈ n.segment, ∃ s : SegmentEnt, g.segments.lookup sid = some s ∧
        s.sberLocation = some loc) →
      netLocConsErr nid loc ∈ (validate_refs_typed g).errors) ∧
    (netLocConsChecks g = [] ↔
      ∀ nid n, (nid, n) ∈ g.networks → ∀ loc ∈ n.location,
        ∃ sid ∈ n.segment, ∃ s : SegmentEnt, g.segments.lookup sid = some s ∧
          s.sberLocation = some loc) := by
  constructor
  · intro nid n hmem loc hloc hnone
    have hncov : ¬loc ∈ segmentLocs g n :=
      fun hc => hnone ((segmentLocs_mem_iff g n loc).mp hc)
    have hcomp : netLocConsErr nid loc ∈ netLocConsChecks g := by
      rw [netLocConsChecks, List.mem_flatMap]
      refine ⟨(nid, n), hmem, ?_⟩
      have hne : ¬n.location.isEmpty = true := by
        cases hl : n.location with
        | nil => rw [hl] at hloc; cases hloc
        | cons a l => simp [hl]
      simp only [hne, if_false, Bool.false_eq_true]
      exact List.mem_map_of_mem _ (List.mem_filter.mpr ⟨hloc, by simpa using hncov⟩)
    simp [validate_refs_typed, hcomp]
  · rw [netLocConsChecks, List.flatMap_eq_nil_iff]
    constructor
    · intro h nid n hmem loc hloc
      have := h (nid, n) hmem
      by_cases hemp : n.location.isEmpty = true
      · rw [List.isEmpty_iff.mp hemp] at hloc
        cases hloc
      · simp only [hemp, if_false, Bool.false_eq_true, List.map_eq_nil_iff,
          List.filter_eq_nil_iff] at this
        have := this loc hloc
        rw [← segmentLocs_mem_iff]
        simpa using this
    · intro h iv hmem
      by_cases hemp : iv.2.location.isEmpty = true
      · simp [hemp]
      · simp only [hemp, if_false, Bool.false_eq_true, List.map_eq_nil_iff,
          List.filter_eq_nil_iff]
        intro loc hloc
        have := h iv.1 iv.2 hmem loc hloc
        rw [← segmentLocs_mem_iff] at this
        simpa using this

/-- C9: severities by reference kind — a KB service naming an unknown network
yields a warning (and every warning arises that way), while every unresolved
structural reference (AZ→Region, DC→AZ, Office→Region, Segment location,
Network→Segment, Network location, Device→Segment, Device→Network) yields an
error. -/
theorem validator_severity_assignment (g : Graph) :
    (∀ i svc, (i, svc) ∈ g.kbs → ∀ net ∈ svc.network_connection, ¬net ∈ g.netIds →
      kbWarnMsg i net ∈ (validate_refs_typed g).warnings) ∧
    (∀ w ∈ (validate_refs_typed g).warnings, ∃ i svc net, (i, svc) ∈ g.kbs ∧
      net ∈ svc.network_connection ∧ ¬net ∈ g.netIds ∧ w = kbWarnMsg i net) ∧
    (∀ i d, (i, d) ∈ g.azs → ∀ r, d.region = some r → ¬r ∈ g.regionIds →
      azErr i r ∈ (validate_refs_typed g).errors) ∧
    (∀ i d, (i, d) ∈ g.dcs → ∀ az, d.availabilityzone = some az → ¬az ∈ g.azIds →
      dcErr i az ∈ (validate_refs_typed g).errors) ∧
    (∀ i d, (i, d) ∈ g.offices → ∀ r, d.region = some r → ¬r ∈ g.regionIds →
      officeErr i r ∈ (validate_refs_typed g).errors) ∧
    (∀ i s, (i, s) ∈ g.segments → ∀ loc, s.sberLocation = some loc →
      ¬loc ∈ g.dcIds → ¬loc ∈ g.officeIds →
      segLocErr i loc ∈ (validate_refs_typed g).errors) ∧
    (∀ i n, (i, n) ∈ g.networks → ∀ s ∈ n.segment, ¬s ∈ g.segIds →
      netSegErr i s ∈ (validate_refs_typed g).errors) ∧
    (∀ i n, (i, n) ∈ g.networks → ∀ l ∈ n.location, ¬l ∈ g.dcIds → ¬l ∈ g.officeIds →
      netLocErr i l ∈ (validate_refs_typed g).errors) ∧
    (∀ i d, (i, d) ∈ g.devices → ∀ s, d.segment = some s → ¬s ∈ g.segIds →
      devSegErr i s ∈ (validate_refs_typed g).errors) ∧
    (∀ i d, (i, d) ∈ g.devices → ∀ n ∈ d.network_connection, ¬n ∈ g.netIds →
      devNetErr i n ∈ (validate_refs_typed g).errors) := by
  refine ⟨?_, ?_, ?_, ?_, ?_, ?_, ?_, ?_, ?_, ?_⟩
  · intro i svc hmem net hnet hmiss
    have hcomp : kbWarnMsg i net ∈ kbWarns g := by
      rw [kbWarns, List.mem_flatMap]
      exact ⟨(i, svc), hmem,
        List.mem_map_of_mem _ (List.mem_filter.mpr ⟨hnet, by simpa using hmiss⟩)⟩
    simpa [validate_refs_typed] using hcomp
  · intro w hw
    have hw' : w ∈ kbWarns g := by simpa [validate_refs_typed] using hw
    rw [kbWarns, List.mem_flatMap] at hw'
    obtain ⟨iv, hiv, hmap⟩ := hw'
    rw [List.mem_map] at hmap
    obtain ⟨net, hfil, hw⟩ := hmap
    rw [List.mem_filter] at hfil
    exact ⟨iv.1, iv.2, net, hiv, hfil.1, by simpa using hfil.2, hw.symm⟩
  · intro i d hmem r hr hmiss
    have hcomp : azErr i r ∈ azChecks g := by
      rw [azChecks, List.mem_flatMap]
      exact ⟨(i, d), hmem, by simp [hr, hmiss]⟩
    simp [validate_refs_typed, hcomp]
  · intro i d hmem az haz hmiss
    have hcomp : dcErr i az ∈ dcChecks g := by
      rw [dcChecks, List.mem_flatMap]
      exact ⟨(i, d), hmem, by simp [haz, hmiss]⟩
    simp [validate_refs_typed, hcomp]
  · intro i d hmem r hr hmiss
    have hcomp : officeErr i r ∈ officeChecks g := by
      rw [officeChecks, List.mem_flatMap]
      exact ⟨(i, d), hmem, by simp [hr, hmiss]⟩
    simp [validate_refs_typed, hcomp]
  · intro i s hmem loc hloc hdc hoff
    have hcomp : segLocErr i loc ∈ segChecks g := by
      rw [segChecks, List.mem_flatMap]
      exact ⟨(i, s), hmem, by simp [hloc, hdc, hoff]⟩
    simp [validate_refs_typed, hcomp]
  · intro i n hmem s hs hmiss
    have hcomp : netSegErr i s ∈ netChecks g := by
      rw [netChecks, List.mem_flatMap]
      refine ⟨(i, n), hmem, List.mem_append_left _ ?_⟩
      exact List.mem_map_of_mem _ (List.mem_filter.mpr ⟨hs, by simpa using hmiss⟩)
    simp [validate_refs_typed, hcomp]
  · intro i n hmem l hl hdc hoff
    have hcomp : netLocErr i l ∈ netChecks g := by
      rw [netChecks, List.mem_flatMap]
      refine ⟨(i, n), hmem, List.mem_append_right _ ?_⟩
      refine List.mem_map_of_mem _ (List.mem_filter.mpr ⟨hl, ?_⟩)
      simp only [decide_eq_true_eq]
      exact ⟨hdc, hoff⟩
    simp [validate_refs_typed, hcomp]
  · intro i d hmem s hs hmiss
    have hcomp : devSegErr i s ∈ devChecks g := by
      rw [devChecks, List.mem_flatMap]
      refine ⟨(i, d), hmem, List.mem_append_left _ ?_⟩
      simp [hs, hmiss]
    simp [validate_refs_typed, hcomp]
  · intro i d hmem n hn hmiss
    have hcomp : devNetErr i n ∈ devChecks g := by
      rw [devChecks, List.mem_flatMap]
      refine ⟨(i, d), hmem, List.mem_append_right _ ?_⟩
      exact List.mem_map_of_mem _ (List.mem_filter.mpr ⟨hn, by simpa using hmiss⟩)
    simp [validate_refs_typed, hcomp]

def exampleGraph9 : Graph :=
  ⟨[], [("org.az.1", ⟨some "org.region.1"⟩)], [], [], [], [],
   [("org.kb.1", ⟨["org.net.1"]⟩)], []⟩

/-- Witness for C9: in a concrete graph a KB service's dangling network
reference lands in the warnings and an AZ's dangling region reference lands
in the errors. -/
theorem validator_severity_assignment_witness :
    kbWarnMsg "org.kb.1" "org.net.1" ∈ (validate_refs_typed exampleGraph9).warnings ∧
    azErr "org.az.1" "org.region.1" ∈ (validate_refs_typed exampleGraph9).errors :=
  ⟨(validator_severity_assignment exampleGraph9).1 "org.kb.1" ⟨["org.net.1"]⟩ (by decide)
     "org.net.1" (by decide) (by decide),
   (validator_severity_assignment exampleGraph9).2.2.1 "org.az.1" ⟨some "org.region.1"⟩
     (by decide) "org.region.1" (by decide) (by decide)⟩

def exampleGraph5 : Graph :=
  ⟨[], [], [("org.dc.1", ⟨none⟩)], [], [("org.seg.a", ⟨some "org.dc.2"⟩)],
   [("org.net.1", ⟨["org.seg.a"], ["org.dc.1"]⟩)], [], []⟩

/-- Witness for C5: a network placed at `org.dc.1` whose only segment lives at
`org.dc.2` gets the location-consistency error. -/
theorem network_location_consistency_check_witness :
    netLocConsErr "org.net.1" "org.dc.1" ∈ (validate_refs_typed exampleGraph5).errors :=
  (network_location_consistency_check exampleGraph5).1 "org.net.1"
    ⟨["org.seg.a"], ["org.dc.1"]⟩ (by decide) "org.dc.1" (by decide)
    (fun hex => absurd ((segmentLocs_mem_iff exampleGraph5 ⟨["org.seg.a"], ["org.dc.1"]⟩
      "org.dc.1").mpr hex) (by decide))

/-! ## C8: dynamic model of `validate_refs` over possibly-malformed fragments

The validator reads YAML files whose contents are dynamically typed; every
Python operation that can raise (`.get`/`.items`/`.keys` on a non-dict,
iterating a non-iterable, set membership of an unhashable value, `dict.update`
with a non-dict) is modelled in an exception monad, threaded through the
report state exactly as the mutable `report` dict is, and the top-level
`try/except` converts a failure into a final errors entry. -/

mutual
def yvalBeq : YVal → YVal → Bool
  | .str a, .str b => a == b
  | .scalar a, .scalar b => a == b
  | .list a, .list b => ylistBeq a b
  | .map a, .map b => yfieldsBeq a b
  | _, _ => false

def ylistBeq : YList → YList → Bool
  | .nil, .nil => true
  | .cons a as, .cons b bs => yvalBeq a b && ylistBeq as bs
  | _, _ => false

def yfieldsBeq : YFields → YFields → Bool
  | .nil, .nil => true
  | .cons k v tl, .cons k' v' tl' => k == k' && yvalBeq v v' && yfieldsBeq tl tl'
  | _, _ => false
end

def YFields.lookupF : YFields → String → Option YVal
  | .nil, _ => none
  | .cons k v tl, key => if k = key then some v else tl.lookupF key

def YFields.toList : YFields → List (String × YVal)
  | .nil => []
  | .cons k v tl => (k, v) :: tl.toList

def YList.toList : YList → List YVal
  | .nil => []
  | .cons v tl => v :: tl.toList

/-- Python truthiness of a loaded YAML value (scalar tags carry the repr of
the non-string scalar; the falsy reprs are enumerated). -/
def pyTruthy : YVal → Bool
  | .str s => !(s == "")
  | .scalar t => !(t ∈ ["None", "False", "0", "0.0"])
  | .list .nil => false
  | .list _ => true
  | .map .nil => false
  | .map _ => true

/-- `str(v)` as used inside the error f-strings (containers only need a
placeholder: the message text is opaque to every check). -/
def pyStrOf : YVal → String
  | .str s => s
  | .scalar t => t
  | .list _ => "<list>"
  | .map _ => "<dict>"

def pyHashable : YVal → Bool
  | .list _ => false
  | .map _ => false
  | _ => true

/-- The validator's file-system view: an absent name is a missing file,
`.error` a file whose read or YAML parse raises, `.ok` the parsed document. -/
abbrev FS := List (String × Except String YVal)

def load_if_exists (fs : FS) (name : String) : Except String YVal :=
  match fs.lookup name with
  | none => .ok (.map .nil)
  | some (.error e) => .error e
  | some (.ok v) => .ok (if pyTruthy v then v else .map .nil)

def strStartsWith (pre s : String) : Bool := pre.data.isPrefixOf s.data
def strEndsWith (suf s : String) : Bool := suf.data.reverse.isPrefixOf s.data.reverse
def isNetworksFragment (name : String) : Bool :=
  strStartsWith "networks_" name && strEndsWith ".yaml" name

abbrev VM := ExceptT String (StateM Report)

def addError (e : String) : VM Unit :=
  modify (fun r => { r with errors := r.errors ++ [e] })

def addWarning (w : String) : VM Unit :=
  modify (fun r => { r with warnings := r.warnings ++ [w] })

def liftE {α : Type} (e : Except String α) : VM α :=
  match e with
  | .ok a => pure a
  | .error m => throw m

/-- `v.get(key, dflt)`: raises on a non-dict. -/
def pyGetD (v : YVal) (key : String) (dflt : YVal) : VM YVal :=
  match v with
  | .map m => pure ((m.lookupF key).getD dflt)
  | _ => throw "AttributeError: object has no attribute 'get'"

/-- `v.get(key)` (default `None`). -/
def pyGet1 (v : YVal) (key : String) : VM YVal := pyGetD v key (.scalar "None")

def pyKeys (v : YVal) : VM (List String) :=
  match v with
  | .map m => pure (keysOfF m)
  | _ => throw "AttributeError: object has no attribute 'keys'"

def pyItems (v : YVal) : VM (List (String × YVal)) :=
  match v with
  | .map m => pure m.toList
  | _ => throw "AttributeError: object has no attribute 'items'"

/-- Python's `a or b`. -/
def pyOrY (v dflt : YVal) : YVal := if pyTruthy v then v else dflt

/-- Iterating a value: lists yield elements, dicts their keys, strings their
characters; anything else raises. -/
def pyIter (v : YVal) : VM (List YVal) :=
  match v with
  | .list xs => pure xs.toList
  | .map m => pure ((keysOfF m).map YVal.str)
  | .str s => pure (s.data.map (fun c => .str ⟨[c]⟩))
  | .scalar _ => throw "TypeError: object is not iterable"

/-- Membership of a value in a set of (string) IDs: unhashable values raise. -/
def memIdsM (r : YVal) (ids : List String) : VM Bool :=
  if pyHashable r then
    pure (match r with
      | .str s => s ∈ ids
      | _ => false)
  else throw "TypeError: unhashable type"

def listIsInfixOf (needle : List Char) : List Char → Bool
  | [] => needle.isEmpty
  | c :: t => needle.isPrefixOf (c :: t) || listIsInfixOf needle t

/-- `x in container` for the containers reachable here. -/
def pyContainsM (x container : YVal) : VM Bool :=
  match container with
  | .map m =>
    if pyHashable x then
      pure (match x with
        | .str s => (m.lookupF s).isSome
        | _ => false)
    else throw "TypeError: unhashable type"
  | .list xs => pure (xs.toList.any (yvalBeq x))
  | .str s =>
    match x with
    | .str t => pure (listIsInfixOf t.data s.data)
    | _ => throw "TypeError: in <string> requires string"
  | .scalar _ => throw "TypeError: argument is not a container"

/-- `container[x]` for the reachable cases (guarded by `x in container`). -/
def pySubscript (container x : YVal) : VM YVal :=
  match container with
  | .map m =>
    match x with
    | .str s =>
      match m.lookupF s with
      | some v => pure v
      | none => throw "KeyError"
    | _ => throw "KeyError"
  | _ => throw "TypeError: object is not subscriptable"

def upsertY (d : List (String × YVal)) (k : String) (v : YVal) : List (String × YVal) :=
  if (d.lookup k).isSome then d.map (fun kv => if kv.1 = k then (k, v) else kv)
  else d ++ [(k, v)]

/-- `networks.update(loaded)`: raises unless the argument is a mapping. -/
def pyUpdate (d : List (String × YVal)) (v : YVal) : VM (List (String × YVal)) :=
  match v with
  | .map m => pure (m.toList.foldl (fun acc kv => upsertY acc kv.1 kv.2) d)
  | _ => throw "TypeError: update expects a mapping"

def pySetAdd (s : List YVal) (x : YVal) : VM (List YVal) :=
  if pyHashable x then pure (if s.any (yvalBeq x) then s else s ++ [x])
  else throw "TypeError: unhashable type"

def pySetMem (x : YVal) (s : List YVal) : VM Bool :=
  if pyHashable x then pure (s.any (yvalBeq x))
  else throw "TypeError: unhashable type"

/-- The body of `validate_refs` (everything inside the `try`), line by line. -/
def validateRefsBody (fs : FS) : VM Unit := do
  let regions ← liftE (load_if_exists fs "dc_region.yaml") >>=
    (pyGetD · "seaf.ta.services.dc_region" (.map .nil))
  let azs ← liftE (load_if_exists fs "dc_az.yaml") >>=
    (pyGetD · "seaf.ta.services.dc_az" (.map .nil))
  let dcs ← liftE (load_if_exists fs "dc.yaml") >>=
    (pyGetD · "seaf.ta.services.dc" (.map .nil))
  let offices ← liftE (load_if_exists fs "office.yaml") >>=
    (pyGetD · "seaf.ta.services.office" (.map .nil))
  let segments ← liftE (load_if_exists fs "network_segment.yaml") >>=
    (pyGetD · "seaf.ta.services.network_segment" (.map .nil))
  let devices ← liftE (load_if_exists fs "components_network.yaml") >>=
    (pyGetD · "seaf.ta.components.network" (.map .nil))
  let kb_services ← liftE (load_if_exists fs "kb.yaml") >>=
    (pyGetD · "seaf.ta.services.kb" (.map .nil))
  let mut networks : List (String × YVal) := []
  for name in sortStrings ((fs.map Prod.fst).filter isNetworksFragment) do
    let d ← liftE (load_if_exists fs name)
    let part ← pyGetD d "seaf.ta.services.network" (.map .nil)
    networks ← pyUpdate networks part
  let region_ids ← pyKeys regions
  let az_ids ← pyKeys azs
  let dc_ids ← pyKeys dcs
  let office_ids ← pyKeys offices
  let seg_ids ← pyKeys segments
  let net_ids := networks.map Prod.fst
  for iv in (← pyItems azs) do
    let r ← pyGet1 iv.2 "region"
    if pyTruthy r then
      if !(← memIdsM r region_ids) then
        addError ("AZ " ++ iv.1 ++ " refs missing Region " ++ pyStrOf r)
  for iv in (← pyItems dcs) do
    let az ← pyGet1 iv.2 "availabilityzone"
    if pyTruthy az then
      if !(← memIdsM az az_ids) then
        addError ("DC " ++ iv.1 ++ " refs missing AZ " ++ pyStrOf az)
  for iv in (← pyItems offices) do
    let r ← pyGet1 iv.2 "region"
    if pyTruthy r then
      if !(← memIdsM r region_ids) then
        addError ("Office " ++ iv.1 ++ " refs missing Region " ++ pyStrOf r)
  for iv in (← pyItems segments) do
    let sber ← pyGet1 iv.2 "sber"
    let loc ← pyGet1 (pyOrY sber (.map .nil)) "location"
    if pyTruthy loc then
      if !(← memIdsM loc dc_ids) && !(← memIdsM loc office_ids) then
        addError ("Segment " ++ iv.1 ++ " has unknown location " ++ pyStrOf loc)
  for iv in networks do
    for s in (← pyIter (pyOrY (← pyGet1 iv.2 "segment") (.list .nil))) do
      if !(← memIdsM s seg_ids) then
        addError ("Network " ++ iv.1 ++ " refs missing Segment " ++ pyStrOf s)
    for l in (← pyIter (pyOrY (← pyGet1 iv.2 "location") (.list .nil))) do
      if !(← memIdsM l dc_ids) && !(← memIdsM l office_ids) then
        addError ("Network " ++ iv.1 ++ " has unknown location " ++ pyStrOf l)
  for iv in (← pyItems kb_services) do
    for net in (← pyIter (pyOrY (← pyGet1 iv.2 "network_connection") (.list .nil))) do
      if !(← memIdsM net net_ids) then
        addWarning ("KB service " ++ iv.1 ++ " refs missing Network " ++ pyStrOf net)
  for iv in (← pyItems devices) do
    let s ← pyGet1 iv.2 "segment"
    if pyTruthy s then
      if !(← memIdsM s seg_ids) then
        addError ("Device " ++ iv.1 ++ " refs missing Segment " ++ pyStrOf s)
    for n in (← pyIter (pyOrY (← pyGet1 iv.2 "network_connection") (.list .nil))) do
      if !(← memIdsM n net_ids) then
        addError ("Device " ++ iv.1 ++ " refs missing Network " ++ pyStrOf n)
  for iv in networks do
    let net_locs ← pyGet1 iv.2 "location"
    if pyTruthy net_locs then
      let mut segment_locs : List YVal := []
      for seg_id in (← pyIter (← pyGetD iv.2 "segment" (.list .nil))) do
        if ← pyContainsM seg_id segments then
          let segment ← pySubscript segments seg_id
          let seg_loc ← pyGet1 (pyOrY (← pyGet1 segment "sber") (.map .nil)) "location"
          if pyTruthy seg_loc then
            segment_locs ← pySetAdd segment_locs seg_loc
      for net_loc in (← pyIter net_locs) do
        if !(← pySetMem net_loc segment_locs) then
          addError ("Network '" ++ iv.1 ++ "' is in location '" ++ pyStrOf net_loc
            ++ "', but none of its associated segments exist in that location.")

def unexpectedMsg (e : String) : String :=
  "An unexpected error occurred during validation: " ++ e

/-- `validate_refs`: the body inside `try`, with any exception appended to the
accumulated report's errors by the `except` clause. -/
def validate_refs_dyn (fs : FS) : Report :=
  match (validateRefsBody fs).run.run { errors := [], warnings := [] } with
  | (.ok _, r) => r
  | (.error e, r) => { r with errors := r.errors ++ [unexpectedMsg e] }

/-- C8: `validate_refs` never raises — for every state of the fragment files
(missing, empty, unreadable, or malformed), it returns a report with an
`errors` list and a `warnings` list; when the body completes, that report is
returned as accumulated, and when any internal operation fails, the partial
report accumulated so far is returned with the failure appended as a final
errors entry rather than propagated. -/
theorem validate_refs_never_raises (fs : FS) :
    (∃ r : Report,
      (validateRefsBody fs).run.run { errors := [], warnings := [] } = (.ok (), r) ∧
      validate_refs_dyn fs = r) ∨
    (∃ (e : String) (r : Report),
      (validateRefsBody fs).run.run { errors := [], warnings := [] } = (.error e, r) ∧
      validate_refs_dyn fs = { r with errors := r.errors ++ [unexpectedMsg e] }) := by
  unfold validate_refs_dyn
  rcases h : (validateRefsBody fs).run.run { errors := [], warnings := [] } with ⟨res, r⟩
  rcases res with e | u
  · right
    exact ⟨e, r, rfl, rfl⟩
  · left
    cases u
    exact ⟨r, rfl, rfl⟩

example :
    validate_refs_dyn [("dc_region.yaml", .ok (.str "oops"))]
      = { errors := [unexpectedMsg "AttributeError: object has no attribute 'get'"],
          warnings := [] } := by decide

def fsExample : FS :=
  [("dc_az.yaml", .ok (.map (.cons "seaf.ta.services.dc_az"
     (.map (.cons "org.az.1" (.map (.cons "region" (.str "org.region.1") .nil)) .nil)) .nil))),
   ("kb.yaml", .ok (.map (.cons "seaf.ta.services.kb"
     (.map (.cons "org.kb.1" (.map (.cons "network_connection"
       (.list (.cons (.str "org.net.9") .nil)) .nil)) .nil)) .nil)))]

example :
    validate_refs_dyn fsExample
      = { errors := ["AZ org.az.1 refs missing Region org.region.1"],
          warnings := ["KB service org.kb.1 refs missing Network org.net.9"] } := by decide

example :
    validate_refs_dyn [("dc.yaml", .error "yaml.scanner.ScannerError")]
      = { errors := [unexpectedMsg "yaml.scanner.ScannerError"], warnings := [] } := by decide
